import Mathlib

/-!
# Verification of the roguelike core (src/main.rs)

Shallow embedding of the game's core data model and operations, translated
directly from `src/main.rs`.

Modelling conventions:
* Rust `i32` values are modelled as `Int` (the quantities involved stay far
  from the `i32` range bounds, so wrap-around never occurs on the inputs we
  reason about); `u32` and indices as `Nat`.
* Display-only data (colors, the tcod rendering context, mouse state) is
  omitted; the message log keeps the message texts (the `Color` of each
  message is display-only).
* Randomness is passed explicitly: the forced-miss draw of `Object::attack`
  becomes a `Bool` argument, the random room candidates of `make_map` become
  a list argument, the level-up menu selection (an external collaborator per
  the spec) becomes a `Fin 3` argument.
* The visibility oracle (`tcod.fov.is_in_fov`) is an external collaborator
  and is passed as a function `Int → Int → Bool`.
* Euclidean distances are only ever *compared* in the source
  (`Object::distance_to` results, and the initial bound `(max_range+1) as
  f32`); since `f32::sqrt` is correctly rounded and monotone, and the integer
  squared distances on the 80×43 map are far below the precision where
  distinct square roots could round to the same `f32`, comparing the exact
  integer squares is equivalent; the embedding therefore tracks squared
  distances in `Int`.
* A Rust `.unwrap()` / slice-index panic path that is unreachable at the
  call sites appearing in the claims is modelled by a total default
  (`Option.getD`, a `match` falling back to the unchanged value, or an
  `Option` result when the claim is precisely about the panic).
-/

/-! ## Constants (src/main.rs lines 17-63) -/

def MAP_WIDTH : Int := 80
def MAP_HEIGHT : Int := 43
def ROOM_MAX_SIZE : Int := 10
def ROOM_MIN_SIZE : Int := 6
def MAX_ROOMS : Nat := 30
def PLAYER : Nat := 0
def HEAL_AMOUNT : Int := 40
def LIGHTNING_DAMAGE : Int := 40
def LIGHTNING_RANGE : Int := 5
def LEVEL_UP_BASE : Int := 200
def LEVEL_UP_FACTOR : Int := 150

/-! ## Data model (structs and enums of src/main.rs) -/

inductive Slot
  | RightHand
  | LeftHand
  | Chest
deriving DecidableEq, Repr

structure Equipment where
  slot : Slot
  equipped : Bool
  max_hp_bonus : Int
  power_bonus : Int
  defense_bonus : Int
deriving DecidableEq, Repr

inductive DeathCallback
  | Player
  | Monster
deriving DecidableEq, Repr

structure Fighter where
  base_max_hp : Int
  hp : Int
  base_defense : Int
  base_power : Int
  on_death : DeathCallback
  xp : Int
deriving DecidableEq, Repr

inductive Ai
  | Basic
deriving DecidableEq, Repr

inductive Item
  | Heal
  | AttackBuff
  | Lightning
  | Sword
  | Chest
  | Targe
deriving DecidableEq, Repr

inductive UseResult
  | UsedUp
  | Cancelled
  | UseAndKept
  | UseAndTakeTurn
deriving DecidableEq, Repr

structure Object where
  x : Int
  y : Int
  char : Char
  name : String
  blocks : Bool
  alive : Bool
  fighter : Option Fighter
  ai : Option Ai
  item : Option Item
  level : Int
  equipment : Option Equipment
  always_visible : Bool
deriving DecidableEq, Repr

structure Tile where
  blocked : Bool
  block_sight : Bool
  explored : Bool
deriving DecidableEq, Repr

def Tile.empty : Tile := { blocked := false, block_sight := false, explored := false }

def Tile.wall : Tile := { blocked := true, block_sight := true, explored := false }

/-- `type Map = Vec<Vec<Tile>>`, indexed `map[x][y]`. -/
abbrev GameMap := List (List Tile)

structure Game where
  map : GameMap
  log : List String
  inventory : List Object
  dungeon_level : Nat

structure Transition where
  level : Nat
  value : Nat
deriving DecidableEq, Repr

/-- `MessageLog::add` (push a message; the `Color` argument is display-only
and omitted). -/
def addMessage (log : List String) (message : String) : List String :=
  log ++ [message]

def addLog (game : Game) (message : String) : Game :=
  { game with log := addMessage game.log message }

/-- `Object::new` (the `color` argument is display-only and omitted). -/
def Object.new (x y : Int) (char : Char) (name : String) (blocks : Bool) : Object :=
  { x := x
    y := y
    char := char
    name := name
    blocks := blocks
    alive := false
    fighter := none
    ai := none
    item := none
    level := 1
    equipment := none
    always_visible := false }

/-! ## Stat composition (Object::get_all_equipped / power / defense / max_hp) -/

/-- `Object::get_all_equipped`: the player (identified in the source by
`self.name == "player"`) gathers every equipped inventory item's Equipment;
any other object gets `vec![]`. -/
def Object.get_all_equipped (self : Object) (game : Game) : List Equipment :=
  if self.name = "player" then
    (game.inventory.filter
        (fun item => (item.equipment.map Equipment.equipped).getD false)).filterMap
      Object.equipment
  else
    []

/-- `Object::power`: `fighter.map_or(0, |f| f.base_power)` plus the sum of
`power_bonus` over `get_all_equipped`. -/
def Object.power (self : Object) (game : Game) : Int :=
  let base_power := (self.fighter.map Fighter.base_power).getD 0
  let bonus := ((self.get_all_equipped game).map Equipment.power_bonus).sum
  base_power + bonus

/-- `Object::defense`. -/
def Object.defense (self : Object) (game : Game) : Int :=
  let base_defense := (self.fighter.map Fighter.base_defense).getD 0
  let bonus := ((self.get_all_equipped game).map Equipment.defense_bonus).sum
  base_defense + bonus

/-- `Object::max_hp`. -/
def Object.max_hp (self : Object) (game : Game) : Int :=
  let base_max_hp := (self.fighter.map Fighter.base_max_hp).getD 0
  let bonus := ((self.get_all_equipped game).map Equipment.max_hp_bonus).sum
  base_max_hp + bonus

/-! ## Death callbacks and damage (take_damage / attack, src lines 180-220, 789-817) -/

/-- `player_death`: logs the death message and rewrites the glyph (the color
change is display-only). -/
def player_death (player : Object) (game : Game) : Object × Game :=
  let game := addLog game "You died, see you another time!"
  ({ player with char := '%' }, game)

/-- `monster_death`: logs the death message (which reads the corpse's banked
xp via `monster.fighter.unwrap().xp`; `getD 0` stands for the unwrap, which
never fails at the one call site, inside `take_damage` where the fighter is
present), then converts the monster in place into inert remains. -/
def monster_death (monster : Object) (game : Game) : Object × Game :=
  let game := addLog game
    ("PAF! " ++ monster.name ++ " is dead! You gain "
      ++ toString ((monster.fighter.map Fighter.xp).getD 0))
  ({ monster with
      char := '%'
      blocks := false
      fighter := none
      ai := none
      name := "remains of " ++ monster.name }, game)

def DeathCallback.callback (self : DeathCallback) (object : Object) (game : Game) :
    Object × Game :=
  match self with
  | .Player => player_death object game
  | .Monster => monster_death object game

/-- `Object::take_damage`: subtract positive damage from hp, then (on the
*copied* fighter, as in the source) check `hp <= 0`, fire the death callback
and return the banked xp. -/
def Object.take_damage (self : Object) (damage : Int) (game : Game) :
    Object × Game × Option Int :=
  let self :=
    match self.fighter with
    | some fighter =>
      if damage > 0 then
        { self with fighter := some { fighter with hp := fighter.hp - damage } }
      else self
    | none => self
  match self.fighter with
  | some fighter =>
    if fighter.hp ≤ 0 then
      let self := { self with alive := false }
      let (self, game) := fighter.on_death.callback self game
      (self, game, some fighter.xp)
    else
      (self, game, none)
  | none => (self, game, none)

/-- `Object::attack`. The forced-miss draw `rand::random::<f32>() < 0.1` is
passed in as `missRoll`. Returns (attacker, target, game). The xp credit
unwraps the attacker's fighter in the source; the `none` fallback keeps the
attacker unchanged on that (unreachable at in-game call sites) path. -/
def Object.attack (self : Object) (target : Object) (game : Game) (missRoll : Bool) :
    Object × Object × Game :=
  let damage := self.power game - target.defense game
  let damage := if missRoll then -1 else damage
  if damage > 0 then
    let game := addLog game
      (self.name ++ " attacks " ++ target.name ++ " for " ++ toString damage
        ++ " hit points.")
    let (target, game, xpOpt) := target.take_damage damage game
    let self :=
      match xpOpt with
      | some xp =>
        match self.fighter with
        | some f => { self with fighter := some { f with xp := f.xp + xp } }
        | none => self
      | none => self
    (self, target, game)
  else if damage < 0 then
    (self, target, addLog game (self.name ++ " miss " ++ target.name ++ "."))
  else
    (self, target,
      addLog game (self.name ++ " attacks " ++ target.name ++ " but it has no effect!"))

/-! ## Casting (Object::cast, cast_heal; src lines 222-246, 504-519) -/

/-- `Object::cast`: the `"heal"` arm adds `amount` to hp and clamps at the
effective max hp computed *before* the mutation (the `"attack_buff"` arm is
commented out in the source; other cast types do nothing). -/
def Object.cast (self : Object) (cast_type : String) (amount : Int) (game : Game) :
    Object :=
  let max_hp := self.max_hp game
  if cast_type = "heal" then
    match self.fighter with
    | some fighter =>
      let fighter := { fighter with hp := fighter.hp + amount }
      let fighter := if fighter.hp > max_hp then { fighter with hp := max_hp } else fighter
      { self with fighter := some fighter }
    | none => self
  else
    self

/-- `cast_heal`, acting on `objects[PLAYER]` (passed here directly as
`player`): cancel at full health, otherwise log and heal by `HEAL_AMOUNT`. -/
def cast_heal (player : Object) (game : Game) : Object × Game × UseResult :=
  match player.fighter with
  | some fighter =>
    if fighter.hp = player.max_hp game then
      (player, addLog game "You are already at full health.", UseResult.Cancelled)
    else
      let game := addLog game "Your wounds start to feel better!"
      (player.cast "heal" HEAL_AMOUNT game, game, UseResult.UsedUp)
  | none => (player, game, UseResult.Cancelled)

/-! ## Leveling (level_up, src lines 587-626) -/

/-- `level_up`, acting on `objects[PLAYER]` (passed here directly). The menu
loop that blocks until the player picks a stat is the external collaborator;
its eventual selection (index 0/1/2) is the `choice` argument. The source
unwraps the fighter after the xp guard; the `none` fallback is unreachable
for any level ≥ 1 (the threshold is then ≥ 350 > 0 = `map_or` default). -/
def level_up (player : Object) (choice : Fin 3) (game : Game) : Object × Game :=
  let level_up_xp := LEVEL_UP_BASE + player.level * LEVEL_UP_FACTOR
  if (player.fighter.map Fighter.xp).getD 0 ≥ level_up_xp then
    let player := { player with level := player.level + 1 }
    let game := addLog game ("You reached level " ++ toString player.level ++ "!")
    match player.fighter with
    | some fighter =>
      let fighter := { fighter with xp := fighter.xp - level_up_xp }
      let fighter :=
        match choice with
        | 0 => { fighter with
                  base_max_hp := fighter.base_max_hp + 20
                  hp := fighter.hp + 20 }
        | 1 => { fighter with base_power := fighter.base_power + 1 }
        | 2 => { fighter with base_defense := fighter.base_defense + 1 }
      ({ player with fighter := some fighter }, game)
    | none => (player, game)
  else
    (player, game)

/-! ## Level-scaled tables (from_dungeon_level, src lines 390-396) -/

/-- `from_dungeon_level`: reversed linear search for the first entry (from
the back of the table) whose `level` threshold is ≤ the queried level. -/
def from_dungeon_level (table : List Transition) (level : Nat) : Nat :=
  match table.reverse.find? (fun transition => decide (level ≥ transition.level)) with
  | some transition => transition.value
  | none => 0

/-! ## Initial world (new_game, src lines 1481-1518) -/

/-- The player object built at the top of `new_game`. -/
def new_game_player : Object :=
  { Object.new 0 0 '@' "player" true with
    fighter := some
      { base_max_hp := 100
        hp := 100
        base_defense := 1
        base_power := 4
        on_death := DeathCallback.Player
        xp := 0 }
    alive := true }

/-- The starting dagger pushed into the fresh inventory by `new_game`. -/
def new_game_dagger : Object :=
  { Object.new 0 0 '-' "dagger" false with
    item := some Item.Sword
    equipment := some
      { equipped := true
        slot := Slot.LeftHand
        max_hp_bonus := 0
        defense_bonus := 0
        power_bonus := 3 } }

/-- The inventory of a fresh game: exactly the dagger. -/
def new_game_inventory : List Object := [new_game_dagger]

/-- A game with nothing in it, for concrete witnesses. -/
def emptyGame : Game := { map := [], log := [], inventory := [], dungeon_level := 1 }

/-- The Fighter of a freshly spawned "poulet" (place_object). -/
def testPouletFighter : Fighter :=
  { base_max_hp := 15
    hp := 15
    base_defense := 0
    base_power := 3
    on_death := DeathCallback.Monster
    xp := 20 }

/-- A freshly spawned "poulet" monster (place_object), placed at (3, 0). -/
def testPoulet : Object :=
  { Object.new 3 0 'p' "poulet" true with
    fighter := some testPouletFighter
    ai := some Ai.Basic
    alive := true }

/-- Claim-side bonus sum: the sum, over every inventory item whose Equipment
component is marked equipped, of the bonus selected by `bonus` (non-equipped
items and items without an Equipment component contribute 0). -/
def equipped_bonus_sum (bonus : Equipment → Int) (inventory : List Object) : Int :=
  (inventory.map (fun item =>
    match item.equipment with
    | some e => if e.equipped then bonus e else 0
    | none => 0)).sum

theorem equipped_bonus_sum_eq (bonus : Equipment → Int) (inv : List Object) :
    (((inv.filter
        (fun item => (item.equipment.map Equipment.equipped).getD false)).filterMap
          Object.equipment).map bonus).sum = equipped_bonus_sum bonus inv := by
  induction inv with
  | nil => rfl
  | cons o rest ih =>
    cases he : o.equipment with
    | none =>
      simp [equipped_bonus_sum, List.filter_cons, he] at ih ⊢
      simpa [he] using ih
    | some e =>
      cases heq : e.equipped with
      | false =>
        simp [equipped_bonus_sum, List.filter_cons, he, heq] at ih ⊢
        simpa using ih
      | true =>
        simp [equipped_bonus_sum, List.filter_cons, List.filterMap_cons, he, heq] at ih ⊢
        simpa using ih

/-! ### Helper lemmas about take_damage -/

theorem take_damage_no_fighter (self : Object) (damage : Int) (game : Game)
    (h : self.fighter = none) :
    self.take_damage damage game = (self, game, none) := by
  simp only [Object.take_damage, h]

theorem take_damage_survive (self : Object) (damage : Int) (game : Game) (f : Fighter)
    (hf : self.fighter = some f) (hpos : 0 < damage) (hs : 0 < f.hp - damage) :
    self.take_damage damage game =
      ({ self with fighter := some { f with hp := f.hp - damage } }, game, none) := by
  simp only [Object.take_damage, hf]
  rw [if_pos (show damage > 0 from hpos)]
  simp only []
  rw [if_neg (by simp; omega)]

theorem take_damage_kill_monster (self : Object) (damage : Int) (game : Game) (f : Fighter)
    (hf : self.fighter = some f) (hpos : 0 < damage) (hk : f.hp - damage ≤ 0)
    (hcb : f.on_death = DeathCallback.Monster) :
    self.take_damage damage game =
      ({ self with
          char := '%'
          blocks := false
          fighter := none
          ai := none
          name := "remains of " ++ self.name
          alive := false },
        addLog game ("PAF! " ++ self.name ++ " is dead! You gain " ++ toString f.xp),
        some f.xp) := by
  simp only [Object.take_damage, hf]
  rw [if_pos (show damage > 0 from hpos)]
  simp only []
  rw [if_pos (show f.hp - damage ≤ 0 from hk)]
  rw [hcb]
  simp [DeathCallback.callback, monster_death, addLog, addMessage]

theorem take_damage_dead_player (self : Object) (damage : Int) (game : Game) (f : Fighter)
    (hf : self.fighter = some f) (hhp : f.hp ≤ 0) (hcb : f.on_death = DeathCallback.Player) :
    (self.take_damage damage game).2.2 = some f.xp ∧
    (self.take_damage damage game).2.1.log =
      game.log ++ ["You died, see you another time!"] := by
  by_cases hpos : damage > 0
  · simp only [Object.take_damage, hf]
    rw [if_pos hpos]
    simp only []
    rw [if_pos (show f.hp - damage ≤ 0 by omega)]
    rw [hcb]
    simp [DeathCallback.callback, player_death, addLog, addMessage]
  · simp only [Object.take_damage, hf]
    rw [if_neg hpos]
    simp only [hf]
    rw [if_pos hhp]
    rw [hcb]
    simp [DeathCallback.callback, player_death, addLog, addMessage]

/-- C1: `Object::attack` resolution. With the forced-miss draw passed in as
`missRoll` and `damage` = effective power of the attacker − effective defense
of the defender: if the draw does not trigger and damage is positive, the
damage is applied to the defender via `take_damage` and a hit message is
logged (with the defender's hp reduced by exactly `damage` whenever the
defender survives); if damage is negative a miss message is logged and the
defender is unchanged; if damage is zero a "no effect" message is logged and
the defender is unchanged; if the draw triggers, the interaction is a miss
(damage forced to −1) regardless of the arithmetic result. -/
theorem C1_attack (attacker target : Object) (game : Game) (missRoll : Bool)
    (fd : Fighter) (hd : target.fighter = some fd)
    (damage : Int) (hdmg : damage = attacker.power game - target.defense game) :
    (missRoll = false → 0 < damage →
      (attacker.attack target game missRoll).2.1 =
        (target.take_damage damage (addLog game
          (attacker.name ++ " attacks " ++ target.name ++ " for " ++ toString damage
            ++ " hit points."))).1 ∧
      (attacker.attack target game missRoll).2.2 =
        (target.take_damage damage (addLog game
          (attacker.name ++ " attacks " ++ target.name ++ " for " ++ toString damage
            ++ " hit points."))).2.1) ∧
    (missRoll = false → 0 < damage → 0 < fd.hp - damage →
      (attacker.attack target game missRoll).2.1.fighter =
        some { fd with hp := fd.hp - damage } ∧
      (attacker.attack target game missRoll).2.2.log =
        game.log ++ [attacker.name ++ " attacks " ++ target.name ++ " for "
          ++ toString damage ++ " hit points."]) ∧
    (missRoll = false → damage < 0 →
      (attacker.attack target game missRoll).2.1 = target ∧
      (attacker.attack target game missRoll).2.2.log =
        game.log ++ [attacker.name ++ " miss " ++ target.name ++ "."]) ∧
    (missRoll = false → damage = 0 →
      (attacker.attack target game missRoll).2.1 = target ∧
      (attacker.attack target game missRoll).2.2.log =
        game.log ++ [attacker.name ++ " attacks " ++ target.name
          ++ " but it has no effect!"]) ∧
    (missRoll = true →
      (attacker.attack target game missRoll).2.1 = target ∧
      (attacker.attack target game missRoll).2.2.log =
        game.log ++ [attacker.name ++ " miss " ++ target.name ++ "."]) := by
  subst hdmg
  refine ⟨?_, ?_, ?_, ?_, ?_⟩
  · intro hm hpos
    subst hm
    have hgt : attacker.power game - target.defense game > 0 := hpos
    simp only [Object.attack, Bool.false_eq_true, if_false, if_pos hgt]
    exact ⟨by trivial, by trivial⟩
  · intro hm hpos hsurv
    subst hm
    have hgt : attacker.power game - target.defense game > 0 := hpos
    simp only [Object.attack, Bool.false_eq_true, if_false, if_pos hgt]
    rw [take_damage_survive target _ _ fd hd hpos hsurv]
    exact ⟨by trivial, by simp [addLog, addMessage]⟩
  · intro hm hneg
    subst hm
    have h1 : ¬ (attacker.power game - target.defense game > 0) := by omega
    simp only [Object.attack, Bool.false_eq_true, if_false, if_neg h1, if_pos hneg]
    exact ⟨by trivial, by simp [addLog, addMessage]⟩
  · intro hm hzero
    subst hm
    have h1 : ¬ (attacker.power game - target.defense game > 0) := by omega
    have h2 : ¬ (attacker.power game - target.defense game < 0) := by omega
    simp only [Object.attack, Bool.false_eq_true, if_false, if_neg h1, if_neg h2]
    exact ⟨by trivial, by simp [addLog, addMessage]⟩
  · intro hm
    subst hm
    have h1 : ¬ ((-1 : Int) > 0) := by omega
    have h2 : (-1 : Int) < 0 := by omega
    simp only [Object.attack, if_true, if_neg h1, if_pos h2]
    exact ⟨by trivial, by simp [addLog, addMessage]⟩

/-- C1 witness: the spec scenario. The fresh player (Fighter base_power 4,
base_defense 1) attacks a fresh poulet (base_defense 0, hp 15) with no
equipped bonuses (empty inventory) and the miss draw not triggered: damage is
4, the poulet's hp drops by exactly 4, and the hit message is logged. -/
theorem C1_attack_witness :
    ((0 : Int) < 4 ∧ (0 : Int) < testPouletFighter.hp - 4 ∧
      (4 : Int) = new_game_player.power emptyGame - testPoulet.defense emptyGame) ∧
    (new_game_player.attack testPoulet emptyGame false).2.1.fighter =
      some { testPouletFighter with hp := testPouletFighter.hp - 4 } ∧
    (new_game_player.attack testPoulet emptyGame false).2.2.log =
      emptyGame.log ++ [new_game_player.name ++ " attacks " ++ testPoulet.name
        ++ " for " ++ toString (4 : Int) ++ " hit points."] :=
  ⟨⟨by decide, by decide, by decide⟩,
    (C1_attack new_game_player testPoulet emptyGame false testPouletFighter rfl 4
      (by decide)).2.1 rfl (by decide) (by decide)⟩

/-- C2: effective stats. The player (the entity the source identifies by
name "player"; no other entity in the game ever carries that name) gets base
Fighter stat + the sum of the equipped inventory items' bonuses; every other
entity gets the base Fighter stats exactly. -/
theorem C2_effective_stats (o : Object) (game : Game) (f : Fighter)
    (hf : o.fighter = some f) :
    (o.name = "player" →
      o.power game = f.base_power +
        equipped_bonus_sum Equipment.power_bonus game.inventory ∧
      o.defense game = f.base_defense +
        equipped_bonus_sum Equipment.defense_bonus game.inventory ∧
      o.max_hp game = f.base_max_hp +
        equipped_bonus_sum Equipment.max_hp_bonus game.inventory) ∧
    (o.name ≠ "player" →
      o.power game = f.base_power ∧
      o.defense game = f.base_defense ∧
      o.max_hp game = f.base_max_hp) := by
  constructor
  · intro hname
    refine ⟨?_, ?_, ?_⟩ <;>
      simp [Object.power, Object.defense, Object.max_hp, Object.get_all_equipped, hname, hf,
        equipped_bonus_sum_eq]
  · intro hname
    refine ⟨?_, ?_, ?_⟩ <;>
      simp [Object.power, Object.defense, Object.max_hp, Object.get_all_equipped, hname, hf]

/-- The fresh player's Fighter (new_game). -/
def new_game_player_fighter : Fighter :=
  { base_max_hp := 100
    hp := 100
    base_defense := 1
    base_power := 4
    on_death := DeathCallback.Player
    xp := 0 }

/-- A game whose inventory is the fresh-game inventory (the equipped dagger,
power_bonus 3). -/
def gameWithDagger : Game :=
  { map := [], log := [], inventory := new_game_inventory, dungeon_level := 1 }

/-- C2 witness: the fresh player with only the equipped dagger (power bonus
3) in the inventory, and a poulet in the same game state. -/
theorem C2_effective_stats_witness :
    (new_game_player.fighter = some new_game_player_fighter ∧
      new_game_player.name = "player" ∧ testPoulet.name ≠ "player") ∧
    (new_game_player.power gameWithDagger = new_game_player_fighter.base_power +
        equipped_bonus_sum Equipment.power_bonus gameWithDagger.inventory ∧
      new_game_player.defense gameWithDagger = new_game_player_fighter.base_defense +
        equipped_bonus_sum Equipment.defense_bonus gameWithDagger.inventory ∧
      new_game_player.max_hp gameWithDagger = new_game_player_fighter.base_max_hp +
        equipped_bonus_sum Equipment.max_hp_bonus gameWithDagger.inventory) ∧
    (testPoulet.power gameWithDagger = testPouletFighter.base_power ∧
      testPoulet.defense gameWithDagger = testPouletFighter.base_defense ∧
      testPoulet.max_hp gameWithDagger = testPouletFighter.base_max_hp) :=
  ⟨⟨rfl, rfl, by decide⟩,
    (C2_effective_stats new_game_player gameWithDagger new_game_player_fighter rfl).1 rfl,
    (C2_effective_stats testPoulet gameWithDagger testPouletFighter rfl).2 (by decide)⟩

/-- C4: leveling. With threshold `T = LEVEL_UP_BASE + level * LEVEL_UP_FACTOR`:
xp = T−1 changes nothing; xp ≥ T increments the character level exactly once,
applies exactly the chosen stat delta (+20 base max hp together with +20 hp,
or +1 base power, or +1 base defense), and leaves xp = original − T ≥ 0. -/
theorem C4_level_up (player : Object) (f : Fighter) (choice : Fin 3) (game : Game)
    (hf : player.fighter = some f)
    (T : Int) (hT : T = LEVEL_UP_BASE + player.level * LEVEL_UP_FACTOR) :
    (f.xp = T - 1 → level_up player choice game = (player, game)) ∧
    (T ≤ f.xp →
      (level_up player choice game).1.level = player.level + 1 ∧
      ∃ f', (level_up player choice game).1.fighter = some f' ∧
        f'.xp = f.xp - T ∧ 0 ≤ f'.xp ∧
        (choice = 0 → f' =
          { f with
              base_max_hp := f.base_max_hp + 20
              hp := f.hp + 20
              xp := f.xp - T }) ∧
        (choice = 1 → f' = { f with base_power := f.base_power + 1, xp := f.xp - T }) ∧
        (choice = 2 → f' = { f with base_defense := f.base_defense + 1, xp := f.xp - T })) := by
  subst hT
  constructor
  · intro hxp
    have hlt : ¬ ((player.fighter.map Fighter.xp).getD 0 ≥
        LEVEL_UP_BASE + player.level * LEVEL_UP_FACTOR) := by
      rw [hf]
      simp only [Option.map_some', Option.getD_some]
      omega
    simp only [level_up, if_neg hlt]
  · intro hge'
    have hge : f.xp ≥ LEVEL_UP_BASE + player.level * LEVEL_UP_FACTOR := hge'
    fin_cases choice <;>
      (simp only [level_up, hf, Option.map_some', Option.getD_some]
       rw [if_pos hge]
       exact ⟨rfl, _, rfl, rfl,
         show 0 ≤ f.xp - (LEVEL_UP_BASE + player.level * LEVEL_UP_FACTOR) by omega,
         fun h => by first | rfl | exact absurd h (by decide),
         fun h => by first | rfl | exact absurd h (by decide),
         fun h => by first | rfl | exact absurd h (by decide)⟩)

/-- A player at character level 1 whose Fighter has banked exactly 350 xp
(the level-1 threshold 200 + 1·150). -/
def testLevelFighter : Fighter := { new_game_player_fighter with xp := 350 }

def testLevelPlayer : Object := { new_game_player with fighter := some testLevelFighter }

/-- C4 witness: xp exactly at the threshold 350 levels the player from 1 to
2 with the Constitution choice applied and xp reset to 0. -/
theorem C4_level_up_witness :
    (testLevelPlayer.fighter = some testLevelFighter ∧
      (350 : Int) = LEVEL_UP_BASE + testLevelPlayer.level * LEVEL_UP_FACTOR ∧
      (350 : Int) ≤ testLevelFighter.xp) ∧
    ((level_up testLevelPlayer 0 emptyGame).1.level = testLevelPlayer.level + 1 ∧
      ∃ f', (level_up testLevelPlayer 0 emptyGame).1.fighter = some f' ∧
        f'.xp = testLevelFighter.xp - 350 ∧ 0 ≤ f'.xp ∧
        ((0 : Fin 3) = 0 → f' =
          { testLevelFighter with
              base_max_hp := testLevelFighter.base_max_hp + 20
              hp := testLevelFighter.hp + 20
              xp := testLevelFighter.xp - 350 }) ∧
        ((0 : Fin 3) = 1 → f' =
          { testLevelFighter with
              base_power := testLevelFighter.base_power + 1
              xp := testLevelFighter.xp - 350 }) ∧
        ((0 : Fin 3) = 2 → f' =
          { testLevelFighter with
              base_defense := testLevelFighter.base_defense + 1
              xp := testLevelFighter.xp - 350 })) :=
  ⟨⟨rfl, by decide, by decide⟩,
    (C4_level_up testLevelPlayer testLevelFighter 0 emptyGame rfl 350 (by decide)).2
      (by decide)⟩

/-- The effective max hp of an object does not depend on the message log. -/
theorem max_hp_addLog (o : Object) (game : Game) (msg : String) :
    o.max_hp (addLog game msg) = o.max_hp game := rfl

/-- C5: `cast_heal`. At exactly effective max hp it cancels with a log
message and leaves the player unchanged; otherwise it returns UsedUp and
raises hp by `HEAL_AMOUNT`, clamped so the result never exceeds the effective
max hp. -/
theorem C5_cast_heal (player : Object) (f : Fighter) (game : Game)
    (hf : player.fighter = some f) :
    (f.hp = player.max_hp game →
      cast_heal player game =
        (player, addLog game "You are already at full health.", UseResult.Cancelled)) ∧
    (f.hp ≠ player.max_hp game →
      (cast_heal player game).2.2 = UseResult.UsedUp ∧
      (cast_heal player game).1.fighter =
        some { f with hp := min (f.hp + HEAL_AMOUNT) (player.max_hp game) }) := by
  constructor
  · intro h
    simp only [cast_heal, hf]
    rw [if_pos h]
  · intro h
    simp only [cast_heal, hf]
    rw [if_neg h]
    refine ⟨rfl, ?_⟩
    have hcast : player.cast "heal" HEAL_AMOUNT (addLog game "Your wounds start to feel better!")
        = { player with
            fighter := some { f with hp := min (f.hp + HEAL_AMOUNT) (player.max_hp game) } } := by
      simp only [Object.cast, max_hp_addLog, hf, if_pos rfl]
      by_cases hc : f.hp + HEAL_AMOUNT > player.max_hp game
      · rw [if_pos hc,
          show min (f.hp + HEAL_AMOUNT) (player.max_hp game) = player.max_hp game by omega]
        rw [if_pos trivial]
      · rw [if_neg hc,
          show min (f.hp + HEAL_AMOUNT) (player.max_hp game) = f.hp + HEAL_AMOUNT by omega]
        rw [if_pos trivial]
    rw [show (player.cast "heal" HEAL_AMOUNT (addLog game "Your wounds start to feel better!"),
        addLog game "Your wounds start to feel better!", UseResult.UsedUp).1
        = player.cast "heal" HEAL_AMOUNT (addLog game "Your wounds start to feel better!")
        from rfl]
    rw [hcast]

/-- A fresh player whose hp has dropped to 95 (of effective max 100). -/
def woundedPlayer : Object :=
  { new_game_player with fighter := some { new_game_player_fighter with hp := 95 } }

/-- C5 witness: at full health (hp 100 = effective max 100 with an empty
inventory) healing cancels and changes nothing; at hp 95 it returns UsedUp
and hp becomes min (95 + 40) 100 = 100. -/
theorem C5_cast_heal_witness :
    (new_game_player.fighter = some new_game_player_fighter ∧
      new_game_player_fighter.hp = new_game_player.max_hp emptyGame) ∧
    cast_heal new_game_player emptyGame =
      (new_game_player, addLog emptyGame "You are already at full health.",
        UseResult.Cancelled) ∧
    (({ new_game_player_fighter with hp := 95 } : Fighter).hp ≠
        woundedPlayer.max_hp emptyGame ∧
      (cast_heal woundedPlayer emptyGame).2.2 = UseResult.UsedUp ∧
      (cast_heal woundedPlayer emptyGame).1.fighter =
        some { ({ new_game_player_fighter with hp := 95 } : Fighter) with
          hp := min ((95 : Int) + HEAL_AMOUNT) (woundedPlayer.max_hp emptyGame) }) :=
  ⟨⟨rfl, by decide⟩,
    (C5_cast_heal new_game_player new_game_player_fighter emptyGame rfl).1 (by decide),
    ⟨by decide,
      (C5_cast_heal woundedPlayer { new_game_player_fighter with hp := 95 } emptyGame
        rfl).2 (by decide)⟩⟩

/-! ## C3: take_damage on already-dead entities -/

/-- A player object that is already dead: `alive = false`, Fighter retained
(as `player_death` leaves it) with hp −2 and 50 banked xp. -/
def deadPlayer : Object :=
  { new_game_player with
    fighter := some { new_game_player_fighter with hp := -2, xp := 50 }
    alive := false
    char := '%' }

/-- A dead monster: `monster_death` has removed its Fighter and Ai. -/
def deadMonster : Object :=
  { testPoulet with
    fighter := none
    ai := none
    blocks := false
    alive := false
    char := '%'
    name := "remains of poulet" }

/-- C3 counterexample: an already-dead *player* (hp −2 ≤ 0, Fighter still
present, Player death tag) hit again by `take_damage 3` returns (re-credits)
its banked xp of 50 once more and fires the player death callback again
(the death message is logged again), contradicting the claimed idempotence
for entities with the Player death tag. -/
theorem C3_take_damage_counterexample :
    ({ new_game_player_fighter with hp := -2, xp := 50 } : Fighter).hp ≤ 0 ∧
    deadPlayer.fighter = some { new_game_player_fighter with hp := -2, xp := 50 } ∧
    (deadPlayer.take_damage 3 emptyGame).2.2 = some 50 ∧
    (deadPlayer.take_damage 3 emptyGame).2.1.log = ["You died, see you another time!"] := by
  decide

/-- C3 amended: take_damage is idempotent on already-dead entities with the
Monster death tag, because `monster_death` removes the Fighter component, so
a further `take_damage` changes nothing and returns no xp; an already-dead
entity with the Player death tag keeps its Fighter (hp ≤ 0), and a further
`take_damage` re-fires the player death callback and re-returns the banked
xp. -/
theorem C3_take_damage_amended (o om p : Object) (g g2 g3 : Game) (dmg dmg2 : Int)
    (f : Fighter) (hdead : o.fighter = none)
    (hpf : p.fighter = some f) (hphp : f.hp ≤ 0)
    (hpcb : f.on_death = DeathCallback.Player) :
    o.take_damage dmg g = (o, g, none) ∧
    (monster_death om g2).1.fighter = none ∧
    (p.take_damage dmg2 g3).2.2 = some f.xp ∧
    (p.take_damage dmg2 g3).2.1.log = g3.log ++ ["You died, see you another time!"] :=
  ⟨take_damage_no_fighter o dmg g hdead, rfl,
    (take_damage_dead_player p dmg2 g3 f hpf hphp hpcb).1,
    (take_damage_dead_player p dmg2 g3 f hpf hphp hpcb).2⟩

/-- C3 amended witness: the dead monster's remains absorb damage with no
state change and no xp; the dead player re-yields 50 xp and the death
message. -/
theorem C3_take_damage_amended_witness :
    (deadMonster.fighter = none ∧
      deadPlayer.fighter = some { new_game_player_fighter with hp := -2, xp := 50 } ∧
      ({ new_game_player_fighter with hp := -2, xp := 50 } : Fighter).hp ≤ 0 ∧
      ({ new_game_player_fighter with hp := -2, xp := 50 } : Fighter).on_death =
        DeathCallback.Player) ∧
    deadMonster.take_damage 7 emptyGame = (deadMonster, emptyGame, none) ∧
    (monster_death deadMonster emptyGame).1.fighter = none ∧
    (deadPlayer.take_damage 7 emptyGame).2.2 = some 50 ∧
    (deadPlayer.take_damage 7 emptyGame).2.1.log =
      emptyGame.log ++ ["You died, see you another time!"] :=
  ⟨⟨rfl, rfl, by decide, rfl⟩,
    C3_take_damage_amended deadMonster deadMonster deadPlayer emptyGame emptyGame emptyGame
      7 7 { new_game_player_fighter with hp := -2, xp := 50 } rfl rfl (by decide) rfl⟩

/-! ## C8: from_dungeon_level -/

/-- The claim's reading of `from_dungeon_level` at one (table, level) pair:
the returned value is the value of a table entry whose threshold is ≤ level
and is the highest such threshold, or 0 when no entry's threshold is ≤
level. -/
def transition_claim_at (table : List Transition) (level : Nat) : Prop :=
  (∃ t ∈ table, t.level ≤ level ∧ (∀ u ∈ table, u.level ≤ level → u.level ≤ t.level) ∧
    from_dungeon_level table level = t.value) ∨
  ((∀ t ∈ table, ¬ t.level ≤ level) ∧ from_dungeon_level table level = 0)

instance (table : List Transition) (level : Nat) :
    Decidable (transition_claim_at table level) := by
  unfold transition_claim_at
  infer_instance

/-- A transition table that is not sorted by ascending threshold. -/
def cexTable : List Transition := [⟨5, 1⟩, ⟨1, 2⟩]

/-- C8 counterexample: on the unsorted table [(5,1), (1,2)] queried at level
5, `from_dungeon_level` returns 2 (the value of the *last* entry whose
threshold is ≤ 5), but the entry with the highest threshold ≤ 5 is (5,1)
with value 1 — so the claim, quantified over *every* transition table, is
false. -/
theorem C8_from_dungeon_level_counterexample :
    from_dungeon_level cexTable 5 = 2 ∧ ¬ transition_claim_at cexTable 5 := by
  decide

theorem from_dungeon_level_nil (level : Nat) : from_dungeon_level [] level = 0 := rfl

theorem from_dungeon_level_append (l : List Transition) (a : Transition) (level : Nat) :
    from_dungeon_level (l ++ [a]) level =
      if a.level ≤ level then a.value else from_dungeon_level l level := by
  by_cases h : a.level ≤ level
  · rw [if_pos h]
    simp only [from_dungeon_level, List.reverse_append, List.reverse_cons, List.reverse_nil,
      List.nil_append, List.cons_append]
    rw [List.find?_cons_of_pos _ (by simpa using h)]
  · rw [if_neg h]
    simp only [from_dungeon_level, List.reverse_append, List.reverse_cons, List.reverse_nil,
      List.nil_append, List.cons_append]
    rw [List.find?_cons_of_neg _ (by simpa using h)]

/-- C8 amended: for a table whose thresholds are strictly increasing (as is
every table built in `place_object` and `make_map`'s callers), the step
function returns the value of the entry with the highest threshold ≤ the
queried level, and 0 when no entry's threshold is ≤ the level. -/
theorem C8_from_dungeon_level_amended (table : List Transition) (level : Nat)
    (hsorted : table.Pairwise (fun a b => a.level < b.level)) :
    transition_claim_at table level := by
  induction table using List.reverseRecOn with
  | nil =>
    right
    exact ⟨by simp, rfl⟩
  | append_singleton l a ih =>
    rw [List.pairwise_append] at hsorted
    obtain ⟨hl, -, hcross⟩ := hsorted
    by_cases h : a.level ≤ level
    · left
      refine ⟨a, by simp, h, ?_, ?_⟩
      · intro u hu _
        rcases List.mem_append.mp hu with hul | hua
        · exact le_of_lt (hcross u hul a (by simp))
        · simp only [List.mem_singleton] at hua
          subst hua
          exact le_refl _
      · rw [from_dungeon_level_append, if_pos h]
    · rcases ih hl with ⟨t, htmem, htle, htmax, htval⟩ | ⟨hnone, hzero⟩
      · left
        refine ⟨t, List.mem_append.mpr (Or.inl htmem), htle, ?_, ?_⟩
        · intro u hu hule
          rcases List.mem_append.mp hu with hul | hua
          · exact htmax u hul hule
          · simp only [List.mem_singleton] at hua
            subst hua
            exact absurd hule h
        · rw [from_dungeon_level_append, if_neg h]
          exact htval
      · right
        constructor
        · intro t ht
          rcases List.mem_append.mp ht with htl | hta
          · exact hnone t htl
          · simp only [List.mem_singleton] at hta
            subst hta
            exact h
        · rw [from_dungeon_level_append, if_neg h]
          exact hzero

/-- C8 amended witness: the troll table [(4,15), (5,30), (7,60)] from
`place_object` is strictly sorted, and the amended claim holds for it at
level 6 (where `from_dungeon_level` returns 30, the value at the highest
threshold 5 ≤ 6). -/
theorem C8_from_dungeon_level_amended_witness :
    (([⟨4, 15⟩, ⟨5, 30⟩, ⟨7, 60⟩] : List Transition).Pairwise
      (fun a b => a.level < b.level)) ∧
    transition_claim_at [⟨4, 15⟩, ⟨5, 30⟩, ⟨7, 60⟩] 6 ∧
    from_dungeon_level [⟨4, 15⟩, ⟨5, 30⟩, ⟨7, 60⟩] 6 = 30 :=
  ⟨by decide,
    C8_from_dungeon_level_amended [⟨4, 15⟩, ⟨5, 30⟩, ⟨7, 60⟩] 6 (by decide),
    by decide⟩

/-! ## C6: equipment toggling and the one-item-per-slot invariant
(equip/dequip src lines 248-296, toggle_equipment 560-576,
get_equipped_in_slot 578-585) -/

/-- Debug rendering of a slot (Rust `{:?}`). -/
def Slot.debugStr : Slot → String
  | .RightHand => "RightHand"
  | .LeftHand => "LeftHand"
  | .Chest => "Chest"

/-- `Object::equip`. The `{:?}` Debug rendering of the whole object in the
error messages is display-only and abbreviated to the object's name. -/
def Object.equip (self : Object) (log : List String) : Object × List String :=
  if self.item.isNone then
    (self, addMessage log ("Can't equip " ++ self.name ++ " because it's not an Item."))
  else
    match self.equipment with
    | some equipment =>
      if equipment.equipped = false then
        ({ self with equipment := some { equipment with equipped := true } },
          addMessage log ("Equipped " ++ self.name ++ " on " ++ equipment.slot.debugStr ++ "."))
      else
        (self, log)
    | none =>
      (self, addMessage log ("Can't equip " ++ self.name ++ " because it's not an Equipment."))

/-- `Object::dequip`. -/
def Object.dequip (self : Object) (log : List String) : Object × List String :=
  if self.item.isNone then
    (self, addMessage log ("Can't dequip " ++ self.name ++ " because it's not an Item."))
  else
    match self.equipment with
    | some equipment =>
      if equipment.equipped = true then
        ({ self with equipment := some { equipment with equipped := false } },
          addMessage log
            ("Dequipped " ++ self.name ++ " from " ++ equipment.slot.debugStr ++ "."))
      else
        (self, log)
    | none =>
      (self, addMessage log ("Can't dequip " ++ self.name ++ " because it's not an Equipment."))

/-- The predicate of `get_equipped_in_slot`'s loop:
`item.equipment.as_ref().map_or(false, |e| e.equipped && e.slot == slot)`. -/
def equipped_in_slot (slot : Slot) (o : Object) : Bool :=
  (o.equipment.map (fun e => e.equipped && decide (e.slot = slot))).getD false

/-- `get_equipped_in_slot`: index of the first inventory item equipped in
`slot` (the source's indexed for loop with early return). -/
def get_equipped_in_slot (slot : Slot) (inventory : List Object) : Option Nat :=
  match inventory with
  | [] => none
  | item :: rest =>
    if equipped_in_slot slot item then some 0
    else (get_equipped_in_slot slot rest).map (· + 1)

/-- Stand-in for the out-of-bounds panic of `game.inventory[inventory_id]`:
an inert object (no Item, no Equipment), on which every operation cancels. -/
def dfltObject : Object := Object.new 0 0 ' ' "out of bounds" false

/-- `toggle_equipment`. -/
def toggle_equipment (inventory_id : Nat) (game : Game) : Game × UseResult :=
  match (game.inventory.getD inventory_id dfltObject).equipment with
  | none => (game, UseResult.Cancelled)
  | some equipment =>
    if equipment.equipped = true then
      let r := (game.inventory.getD inventory_id dfltObject).dequip game.log
      ({ game with inventory := game.inventory.set inventory_id r.1, log := r.2 },
        UseResult.UseAndKept)
    else
      let game :=
        match get_equipped_in_slot equipment.slot game.inventory with
        | some current =>
          let r := (game.inventory.getD current dfltObject).dequip game.log
          { game with inventory := game.inventory.set current r.1, log := r.2 }
        | none => game
      let r := (game.inventory.getD inventory_id dfltObject).equip game.log
      ({ game with inventory := game.inventory.set inventory_id r.1, log := r.2 },
        UseResult.UseAndKept)

/-- The claimed invariant: at most one inventory item per equipment slot is
marked equipped. -/
def slot_invariant (inventory : List Object) : Prop :=
  ∀ s : Slot, inventory.countP (equipped_in_slot s) ≤ 1

/-! ### Helper lemmas for the slot invariant -/

theorem countP_set_exchange (p : Object → Bool) (l : List Object) (i : Nat) (a : Object)
    (h : i < l.length) :
    (l.set i a).countP p + (if p l[i] then 1 else 0)
      = l.countP p + (if p a then 1 else 0) := by
  induction l generalizing i with
  | nil => simp at h
  | cons x t ih =>
    cases i with
    | zero =>
      simp only [List.set_cons_zero, List.countP_cons, List.getElem_cons_zero]
      omega
    | succ n =>
      have h' : n < t.length := by simpa using h
      simp only [List.set_cons_succ, List.countP_cons, List.getElem_cons_succ]
      have := ih n h'
      omega

theorem countP_set_le (p : Object → Bool) (l : List Object) (i : Nat) (a : Object)
    (h : i < l.length) (himp : p a = true → p l[i] = true) :
    (l.set i a).countP p ≤ l.countP p := by
  have := countP_set_exchange p l i a h
  by_cases ha : p a = true
  · rw [himp ha] at this
    simp [ha] at this
    omega
  · simp only [Bool.not_eq_true] at ha
    rw [ha] at this
    by_cases hl : p l[i] = true <;> simp [hl] at this <;> omega

theorem get_equipped_in_slot_some (slot : Slot) (inv : List Object) (i : Nat)
    (h : get_equipped_in_slot slot inv = some i) :
    ∃ hi : i < inv.length, equipped_in_slot slot inv[i] = true := by
  induction inv generalizing i with
  | nil => simp [get_equipped_in_slot] at h
  | cons x t ih =>
    rw [get_equipped_in_slot] at h
    by_cases hx : equipped_in_slot slot x = true
    · rw [if_pos hx] at h
      have : i = 0 := by
        have := Option.some.inj h
        omega
      subst this
      exact ⟨by simp, by simpa using hx⟩
    · rw [if_neg hx] at h
      cases hg : get_equipped_in_slot slot t with
      | none => rw [hg] at h; simp at h
      | some j =>
        rw [hg] at h
        simp only [Option.map_some'] at h
        have hij : i = j + 1 := by
          have := Option.some.inj h
          omega
        subst hij
        obtain ⟨hj, hpj⟩ := ih j hg
        exact ⟨by simp; omega, by simpa using hpj⟩

theorem get_equipped_in_slot_none (slot : Slot) (inv : List Object)
    (h : get_equipped_in_slot slot inv = none) :
    inv.countP (equipped_in_slot slot) = 0 := by
  induction inv with
  | nil => simp
  | cons x t ih =>
    rw [get_equipped_in_slot] at h
    by_cases hx : equipped_in_slot slot x = true
    · rw [if_pos hx] at h
      simp at h
    · rw [if_neg hx] at h
      rcases Option.map_eq_none'.mp h with hg
      rw [List.countP_cons]
      simp only [Bool.not_eq_true] at hx
      rw [hx]
      simp [ih hg]

theorem dequip_eq (o : Object) (log : List String) (it : Item) (e : Equipment)
    (hit : o.item = some it) (he : o.equipment = some e) (hq : e.equipped = true) :
    o.dequip log = ({ o with equipment := some { e with equipped := false } },
      addMessage log ("Dequipped " ++ o.name ++ " from " ++ e.slot.debugStr ++ ".")) := by
  simp [Object.dequip, hit, he, hq]

theorem equip_eq (o : Object) (log : List String) (it : Item) (e : Equipment)
    (hit : o.item = some it) (he : o.equipment = some e) (hq : e.equipped = false) :
    o.equip log = ({ o with equipment := some { e with equipped := true } },
      addMessage log ("Equipped " ++ o.name ++ " on " ++ e.slot.debugStr ++ ".")) := by
  simp [Object.equip, hit, he, hq]

/-- `dequip` never newly equips anything. -/
theorem equipped_in_slot_dequip_mono (o : Object) (log : List String) (s : Slot)
    (h : equipped_in_slot s (o.dequip log).1 = true) : equipped_in_slot s o = true := by
  by_cases hit : o.item.isNone = true
  · simp only [Object.dequip, if_pos hit] at h
    exact h
  · cases he : o.equipment with
    | none =>
      simp only [Object.dequip, if_neg hit, he] at h
      exact h
    | some e =>
      by_cases hq : e.equipped = true
      · obtain ⟨it, hit2⟩ : ∃ it, o.item = some it := by
          cases hoi : o.item
          · simp [hoi] at hit
          · exact ⟨_, rfl⟩
        rw [dequip_eq o log it e hit2 he hq] at h
        simp [equipped_in_slot] at h
      · simp only [Object.dequip, if_neg hit, he, if_neg hq] at h
        exact h

/-- A fully dequipped item is equipped in no slot. -/
theorem equipped_in_slot_dequip_false (o : Object) (log : List String) (it : Item)
    (e : Equipment) (hit : o.item = some it) (he : o.equipment = some e)
    (hq : e.equipped = true) (s : Slot) :
    equipped_in_slot s (o.dequip log).1 = false := by
  rw [dequip_eq o log it e hit he hq]
  simp [equipped_in_slot]

/-- After a successful `equip`, the item is equipped exactly in its own
Equipment slot. -/
theorem equipped_in_slot_equip (o : Object) (log : List String) (it : Item)
    (e : Equipment) (hit : o.item = some it) (he : o.equipment = some e)
    (hq : e.equipped = false) (s : Slot) :
    equipped_in_slot s (o.equip log).1 = decide (e.slot = s) := by
  rw [equip_eq o log it e hit he hq]
  simp [equipped_in_slot]

/-- `equip` on an object without an Item component changes nothing. -/
theorem equip_no_item (o : Object) (log : List String) (h : o.item = none) :
    (o.equip log).1 = o := by
  simp [Object.equip, h]

theorem count_if_true : (if (true : Bool) = true then (1 : Nat) else 0) = 1 := rfl

theorem count_if_false : (if (false : Bool) = true then (1 : Nat) else 0) = 0 := rfl

theorem countP_set_ff (p : Object → Bool) (l : List Object) (i : Nat) (a : Object)
    (h : i < l.length) (hold : p l[i] = false) (hnew : p a = false) :
    (l.set i a).countP p = l.countP p := by
  have hx := countP_set_exchange p l i a h
  rw [hold, hnew, count_if_false] at hx
  omega

theorem countP_set_ft (p : Object → Bool) (l : List Object) (i : Nat) (a : Object)
    (h : i < l.length) (hold : p l[i] = false) (hnew : p a = true) :
    (l.set i a).countP p = l.countP p + 1 := by
  have hx := countP_set_exchange p l i a h
  rw [hold, hnew, count_if_false, count_if_true] at hx
  omega

theorem countP_set_tf (p : Object → Bool) (l : List Object) (i : Nat) (a : Object)
    (h : i < l.length) (hold : p l[i] = true) (hnew : p a = false) :
    (l.set i a).countP p + 1 = l.countP p := by
  have hx := countP_set_exchange p l i a h
  rw [hold, hnew, count_if_false, count_if_true] at hx
  omega

/-- Core preservation fact: `toggle_equipment` preserves the one-equipped-
item-per-slot invariant, provided every inventory item carrying an Equipment
component also carries an Item component (true of every item the game ever
puts in the inventory: the starting dagger and the spawned sword / chainmail
/ targe all carry both). -/
theorem toggle_preserves_slot_invariant (game : Game) (id : Nat)
    (hinv : slot_invariant game.inventory)
    (hitems : ∀ o ∈ game.inventory, o.equipment.isSome = true → o.item.isSome = true) :
    slot_invariant (toggle_equipment id game).1.inventory := by
  cases hEq : (game.inventory.getD id dfltObject).equipment with
  | none =>
    simp only [toggle_equipment, hEq]
    exact hinv
  | some e =>
    have hidlt : id < game.inventory.length := by
      by_contra hge
      push_neg at hge
      rw [List.getD_eq_default _ _ hge] at hEq
      simp [dfltObject, Object.new] at hEq
    have hgetD : game.inventory.getD id dfltObject = game.inventory[id] :=
      List.getD_eq_getElem _ _ hidlt
    by_cases hq : e.equipped = true
    · simp only [toggle_equipment, hEq, if_pos hq]
      intro s
      refine le_trans (countP_set_le _ _ _ _ hidlt ?_) (hinv s)
      intro hp
      exact equipped_in_slot_dequip_mono _ _ _ (by rwa [hgetD] at hp)
    · simp only [Bool.not_eq_true] at hq
      have hitSome : (game.inventory.getD id dfltObject).item.isSome = true := by
        apply hitems _ (by rw [hgetD]; exact List.getElem_mem _)
        rw [hEq]
        rfl
      obtain ⟨it, hit⟩ := Option.isSome_iff_exists.mp hitSome
      have hpid : ∀ s : Slot,
          equipped_in_slot s (game.inventory.getD id dfltObject) = false := by
        intro s
        unfold equipped_in_slot
        rw [hEq]
        simp [hq]
      have hpid2 : ∀ s : Slot, equipped_in_slot s game.inventory[id] = false := by
        intro s
        rw [← hgetD]
        exact hpid s
      cases hcur : get_equipped_in_slot e.slot game.inventory with
      | none =>
        simp only [toggle_equipment, hEq, if_neg (by simp [hq] : ¬ e.equipped = true), hcur]
        intro s
        by_cases hs : e.slot = s
        · subst hs
          have h0 : game.inventory.countP (equipped_in_slot e.slot) = 0 :=
            get_equipped_in_slot_none _ _ hcur
          rw [countP_set_ft (equipped_in_slot e.slot) game.inventory id
            ((game.inventory.getD id dfltObject).equip game.log).1 hidlt (hpid2 e.slot)
            (by rw [equipped_in_slot_equip _ _ it e hit hEq hq e.slot]; simp)]
          omega
        · rw [countP_set_ff (equipped_in_slot s) game.inventory id
            ((game.inventory.getD id dfltObject).equip game.log).1 hidlt (hpid2 s)
            (by rw [equipped_in_slot_equip _ _ it e hit hEq hq s]; simp [hs])]
          exact hinv s
      | some cur =>
        obtain ⟨hcurlt, hpcur⟩ := get_equipped_in_slot_some _ _ _ hcur
        have hcurne : cur ≠ id := by
          intro hcontra
          subst hcontra
          rw [hpid2 e.slot] at hpcur
          exact absurd hpcur (by simp)
        have hgetDcur : game.inventory.getD cur dfltObject = game.inventory[cur] :=
          List.getD_eq_getElem _ _ hcurlt
        obtain ⟨ecur, hecur⟩ : ∃ ec, (game.inventory[cur]).equipment = some ec := by
          revert hpcur
          unfold equipped_in_slot
          cases hc : (game.inventory[cur]).equipment
          · simp
          · intro _
            exact ⟨_, rfl⟩
        have hecurq : ecur.equipped = true := by
          have h2 := hpcur
          unfold equipped_in_slot at h2
          rw [hecur] at h2
          simp at h2
          exact h2.1
        have hitcurSome : (game.inventory[cur]).item.isSome = true := by
          apply hitems _ (List.getElem_mem _)
          rw [hecur]
          rfl
        obtain ⟨itcur, hitcur⟩ := Option.isSome_iff_exists.mp hitcurSome
        simp only [toggle_equipment, hEq, if_neg (by simp [hq] : ¬ e.equipped = true), hcur]
        intro s
        -- after dequipping the current occupant, it is equipped in no slot
        have hdq : ∀ s' : Slot,
            equipped_in_slot s' ((game.inventory.getD cur dfltObject).dequip game.log).1
              = false := by
          intro s'
          rw [hgetDcur]
          exact equipped_in_slot_dequip_false _ _ itcur ecur hitcur hecur hecurq s'
        set l1 := game.inventory.set cur
          ((game.inventory.getD cur dfltObject).dequip game.log).1 with hl1
        have hidlt1 : id < l1.length := by
          rw [hl1, List.length_set]
          exact hidlt
        have hid1 : l1[id] = game.inventory[id] := List.getElem_set_ne hcurne _
        have hgetid1 : l1.getD id dfltObject = game.inventory.getD id dfltObject := by
          rw [List.getD_eq_getElem _ _ hidlt1, hid1, hgetD]
        have hpid1 : ∀ s' : Slot, equipped_in_slot s' l1[id] = false := by
          intro s'
          rw [hid1]
          exact hpid2 s'
        -- count in l1, per slot
        by_cases hs : e.slot = s
        · subst hs
          have h1 : l1.countP (equipped_in_slot e.slot) + 1
              = game.inventory.countP (equipped_in_slot e.slot) :=
            countP_set_tf _ _ _ _ hcurlt hpcur (hdq e.slot)
          have hle := hinv e.slot
          rw [countP_set_ft (equipped_in_slot e.slot) l1 id
            ((l1.getD id dfltObject).equip
              ((game.inventory.getD cur dfltObject).dequip game.log).2).1 hidlt1
            (hpid1 e.slot)
            (by rw [hgetid1, equipped_in_slot_equip _ _ it e hit hEq hq e.slot]; simp)]
          omega
        · have h1 : l1.countP (equipped_in_slot s) ≤
              game.inventory.countP (equipped_in_slot s) := by
            by_cases hps : equipped_in_slot s game.inventory[cur] = true
            · have hstep := countP_set_tf (equipped_in_slot s) game.inventory cur
                ((game.inventory.getD cur dfltObject).dequip game.log).1 hcurlt hps (hdq s)
              rw [← hl1] at hstep
              omega
            · simp only [Bool.not_eq_true] at hps
              have hstep := countP_set_ff (equipped_in_slot s) game.inventory cur
                ((game.inventory.getD cur dfltObject).dequip game.log).1 hcurlt hps (hdq s)
              rw [← hl1] at hstep
              omega
          rw [countP_set_ff (equipped_in_slot s) l1 id
            ((l1.getD id dfltObject).equip
              ((game.inventory.getD cur dfltObject).dequip game.log).2).1 hidlt1
            (hpid1 s)
            (by rw [hgetid1, equipped_in_slot_equip _ _ it e hit hEq hq s]; simp [hs])]
          exact le_trans h1 (hinv s)

/-- An on-ground sword as spawned by `place_object`: Equipment present but
not equipped. -/
def testSword : Object :=
  { Object.new 0 0 '/' "sword" false with
    item := some Item.Sword
    equipment := some
      { equipped := false
        slot := Slot.RightHand
        max_hp_bonus := 0
        defense_bonus := 0
        power_bonus := 3 } }

/-- C6: at most one inventory item per equipment slot is equipped. The
invariant holds for the initial inventory (`new_game`'s lone equipped
dagger) and is preserved by every inventory operation: `toggle_equipment`
(which, on an unequipped target, first dequips the current occupant of the
slot found by `get_equipped_in_slot`, and on an equipped target only dequips
it), removal of an item (`drop_item` / `use_item` consumption), and pushing
a not-equipped item (`pick_item_up`; every on-ground item, whether spawned
by `place_object` or dropped after `drop_item`'s auto-dequip, is
unequipped). The `hitems` hypothesis — every inventory item carrying an
Equipment component also carries an Item component — holds for every item
the game ever creates. -/
theorem C6_one_equipped_per_slot (game : Game) (id i : Nat) (onew : Object)
    (hinv : slot_invariant game.inventory)
    (hitems : ∀ o ∈ game.inventory, o.equipment.isSome = true → o.item.isSome = true)
    (hnew : ∀ s : Slot, equipped_in_slot s onew = false) :
    slot_invariant new_game_inventory ∧
    slot_invariant (toggle_equipment id game).1.inventory ∧
    slot_invariant (game.inventory.eraseIdx i) ∧
    slot_invariant (game.inventory ++ [onew]) := by
  refine ⟨?_, toggle_preserves_slot_invariant game id hinv hitems, ?_, ?_⟩
  · intro s
    cases s <;> decide
  · intro s
    exact le_trans (List.Sublist.countP_le _ (List.eraseIdx_sublist _ i)) (hinv s)
  · intro s
    rw [List.countP_append]
    have h0 : List.countP (equipped_in_slot s) [onew] = 0 := by
      rw [List.countP_cons, hnew s, count_if_false]
      rfl
    rw [h0]
    have := hinv s
    omega

/-- C6 witness: the fresh inventory (one equipped dagger), toggling item 0
(the dagger), removing item 0, and pushing an unequipped on-ground sword all
satisfy the invariant. -/
theorem C6_one_equipped_per_slot_witness :
    (slot_invariant gameWithDagger.inventory ∧
      (∀ o ∈ gameWithDagger.inventory, o.equipment.isSome = true → o.item.isSome = true) ∧
      (∀ s : Slot, equipped_in_slot s testSword = false)) ∧
    (slot_invariant new_game_inventory ∧
      slot_invariant (toggle_equipment 0 gameWithDagger).1.inventory ∧
      slot_invariant (gameWithDagger.inventory.eraseIdx 0) ∧
      slot_invariant (gameWithDagger.inventory ++ [testSword])) := by
  have h1 : slot_invariant gameWithDagger.inventory := by
    intro s
    cases s <;> decide
  have h2 : ∀ o ∈ gameWithDagger.inventory, o.equipment.isSome = true →
      o.item.isSome = true := by
    intro o ho _
    simp only [gameWithDagger, new_game_inventory, List.mem_singleton] at ho
    subst ho
    rfl
  have h3 : ∀ s : Slot, equipped_in_slot s testSword = false := by
    intro s
    cases s <;> decide
  exact ⟨⟨h1, h2, h3⟩, C6_one_equipped_per_slot gameWithDagger 0 0 testSword h1 h2 h3⟩

/-! ## C7 / C10: dungeon generation (Rect 744-774, create_room 834-841,
tunnels 843-853, make_map 1104-1161) -/

structure Rect where
  x1 : Int
  y1 : Int
  x2 : Int
  y2 : Int
deriving DecidableEq, Repr

/-- `Rect::new`. -/
def Rect.new (x y w h : Int) : Rect :=
  { x1 := x, y1 := y, x2 := x + w, y2 := y + h }

/-- `Rect::center` (Rust `i32` division; all coordinates that reach it are
non-negative, where Euclidean and truncating division agree). -/
def Rect.center (self : Rect) : Int × Int :=
  ((self.x1 + self.x2) / 2, (self.y1 + self.y2) / 2)

/-- `Rect::intersect_with`. -/
def Rect.intersect_with (self other : Rect) : Bool :=
  decide (self.x1 ≤ other.x2) && decide (self.x2 ≥ other.x1) &&
  decide (self.y1 ≤ other.y2) && decide (self.y2 ≥ other.y1)

/-- Rust `for v in a..b` over `i32`, as the list of its iterates. -/
def intRange (a b : Int) : List Int :=
  (List.range (b - a).toNat).map (fun i : Nat => a + (i : Int))

/-- `map[x as usize][y as usize] = t` (an out-of-bounds index panics in the
source; `List.set` leaves the list unchanged, and no in-range call site ever
goes out of bounds). -/
def setTile (map : GameMap) (x y : Int) (t : Tile) : GameMap :=
  map.set x.toNat ((map.getD x.toNat []).set y.toNat t)

/-- Read `map[x][y]` (same out-of-bounds caveat, defaulting to a wall). -/
def tileAt (map : GameMap) (x y : Int) : Tile :=
  (map.getD x.toNat []).getD y.toNat Tile.wall

/-- `create_room`: carve `Tile::empty` on the open interior
`(x1+1..x2) × (y1+1..y2)`. -/
def create_room (room : Rect) (map : GameMap) : GameMap :=
  (intRange (room.x1 + 1) room.x2).foldl
    (fun m x =>
      (intRange (room.y1 + 1) room.y2).foldl
        (fun m2 y => setTile m2 x y Tile.empty) m)
    map

/-- `create_h_tunnel`. -/
def create_h_tunnel (x1 x2 y : Int) (map : GameMap) : GameMap :=
  (intRange (min x1 x2) (max x1 x2 + 1)).foldl (fun m x => setTile m x y Tile.empty) map

/-- `create_v_tunnel`. -/
def create_v_tunnel (y1 y2 x : Int) (map : GameMap) : GameMap :=
  (intRange (min y1 y2) (max y1 y2 + 1)).foldl (fun m y => setTile m x y Tile.empty) map

/-- The fully-walled starting grid of `make_map`. -/
def initial_map : GameMap :=
  List.replicate MAP_WIDTH.toNat (List.replicate MAP_HEIGHT.toNat Tile.wall)

/-- The random draws of one `make_map` loop iteration: room width, height,
position (four `gen_range` calls) and the tunnel-axis coin (`rand::random`). -/
structure RoomDraw where
  w : Int
  h : Int
  x : Int
  y : Int
  coin : Bool
deriving DecidableEq, Repr

/-- `Rect::new(x, y, w, h)` for this draw. -/
def RoomDraw.rect (d : RoomDraw) : Rect := Rect.new d.x d.y d.w d.h

/-- The `gen_range` postconditions of one iteration's draws:
`w, h ∈ [ROOM_MIN_SIZE, ROOM_MAX_SIZE]`, `x ∈ [0, MAP_WIDTH − w)`,
`y ∈ [0, MAP_HEIGHT − h)`. -/
def RoomDraw.valid (d : RoomDraw) : Prop :=
  ROOM_MIN_SIZE ≤ d.w ∧ d.w ≤ ROOM_MAX_SIZE ∧
  ROOM_MIN_SIZE ≤ d.h ∧ d.h ≤ ROOM_MAX_SIZE ∧
  0 ≤ d.x ∧ d.x < MAP_WIDTH - d.w ∧
  0 ≤ d.y ∧ d.y < MAP_HEIGHT - d.h

/-- What `RoomDraw.valid` gives for the built rectangle. -/
def ValidRect (r : Rect) : Prop :=
  0 ≤ r.x1 ∧ r.x1 + ROOM_MIN_SIZE ≤ r.x2 ∧ r.x2 < MAP_WIDTH ∧
  0 ≤ r.y1 ∧ r.y1 + ROOM_MIN_SIZE ≤ r.y2 ∧ r.y2 < MAP_HEIGHT

theorem RoomDraw.valid_rect (d : RoomDraw) (h : d.valid) : ValidRect d.rect := by
  obtain ⟨h1, h2, h3, h4, h5, h6, h7, h8⟩ := h
  refine ⟨h5, ?_, ?_, h7, ?_, ?_⟩ <;>
    simp only [RoomDraw.rect, Rect.new] <;> omega

/-- One iteration of the room-placement loop of `make_map` (the body of
`for _ in 0..MAX_ROOMS`). The state is (map, accepted rooms, player
position); `place_object`'s monster/item spawning reads further random draws
and touches neither the map, the room list nor the player position, so it is
not part of this state. -/
def make_map_step (st : GameMap × List Rect × (Int × Int)) (d : RoomDraw) :
    GameMap × List Rect × (Int × Int) :=
  let new_room := d.rect
  let failed := st.2.1.any (fun other_room => new_room.intersect_with other_room)
  if failed then st
  else
    let map := create_room new_room st.1
    let c := new_room.center
    if st.2.1.isEmpty then
      (map, st.2.1 ++ [new_room], c)
    else
      let prev := (st.2.1.getD (st.2.1.length - 1) new_room).center
      let map :=
        if d.coin then
          create_v_tunnel prev.2 c.2 c.1 (create_h_tunnel prev.1 c.1 prev.2 map)
        else
          create_h_tunnel prev.1 c.1 c.2 (create_v_tunnel prev.2 c.2 prev.1 map)
      (map, st.2.1 ++ [new_room], st.2.2)

/-- The room-placement loop of `make_map`, folded over the iteration draws. -/
def make_map_loop (draws : List RoomDraw) (pstart : Int × Int) :
    GameMap × List Rect × (Int × Int) :=
  draws.foldl make_map_step (initial_map, [], pstart)

/-- The stairs object appended at the end of `make_map`. -/
def stairsObject (c : Int × Int) : Object :=
  { Object.new c.1 c.2 '<' "stairs" false with always_visible := true }

/-- `make_map`'s effect on the object store: truncate to the player, run the
room loop (spawned monsters/items are omitted, see `make_map_loop`), then
append the stairs at the center of `rooms[rooms.len() - 1]` — an index that
panics when no room was accepted, modelled as `none`. -/
def make_map_objects (objects : List Object) (draws : List RoomDraw)
    (pstart : Int × Int) : Option (List Object) :=
  let objects := objects.take 1
  match ((make_map_loop draws pstart).2.1).getLast? with
  | none => none
  | some last => some (objects ++ [stairsObject last.center])

/-! ### Tile-level lemmas -/

theorem getD_set_ne {α : Type} (l : List α) (i j : Nat) (a d : α) (h : i ≠ j) :
    (l.set i a).getD j d = l.getD j d := by
  simp only [List.getD_eq_getElem?_getD, List.getElem?_set_ne h]

theorem getD_set_self_of_lt {α : Type} (l : List α) (i : Nat) (a d : α)
    (h : i < l.length) : (l.set i a).getD i d = a := by
  simp only [List.getD_eq_getElem?_getD, List.getElem?_set_self h, Option.getD_some]

/-- Grid dimensions of `make_map`'s maps: MAP_WIDTH columns of MAP_HEIGHT
tiles each. -/
def MapDims (m : GameMap) : Prop :=
  m.length = MAP_WIDTH.toNat ∧ ∀ row ∈ m, row.length = MAP_HEIGHT.toNat

theorem initial_map_dims : MapDims initial_map := by
  constructor
  · simp [initial_map]
  · intro row hrow
    rw [List.eq_of_mem_replicate hrow]
    simp

theorem setTile_dims (m : GameMap) (x y : Int) (t : Tile) (hd : MapDims m) :
    MapDims (setTile m x y t) := by
  obtain ⟨hl, hr⟩ := hd
  refine ⟨by rw [setTile, List.length_set]; exact hl, ?_⟩
  intro row hrow
  rw [setTile] at hrow
  by_cases hx : x.toNat < m.length
  · rcases List.mem_or_eq_of_mem_set hrow with h | h
    · exact hr _ h
    · subst h
      rw [List.length_set]
      exact hr _ (by rw [List.getD_eq_getElem _ _ hx]; exact List.getElem_mem _)
  · rw [List.set_eq_of_length_le (by omega)] at hrow
    exact hr _ hrow

theorem tileAt_setTile_self (m : GameMap) (x y : Int) (t : Tile)
    (hx : x.toNat < m.length) (hy : y.toNat < (m.getD x.toNat []).length) :
    tileAt (setTile m x y t) x y = t := by
  unfold tileAt setTile
  rw [getD_set_self_of_lt _ _ _ _ hx]
  rw [getD_set_self_of_lt _ _ _ _ hy]

/-- Writing `Tile.empty` anywhere preserves "this cell is empty". -/
theorem tileAt_setTile_empty_preserve (m : GameMap) (a b x y : Int)
    (h : tileAt m x y = Tile.empty) :
    tileAt (setTile m a b Tile.empty) x y = Tile.empty := by
  by_cases hax : a.toNat = x.toNat
  · by_cases hlen : x.toNat < m.length
    · by_cases hby : b.toNat = y.toNat
      · by_cases hrow : y.toNat < (m.getD x.toNat []).length
        · rw [show setTile m a b Tile.empty = setTile m a y Tile.empty by
            unfold setTile; rw [hby]]
          rw [show setTile m a y Tile.empty = setTile m x y Tile.empty by
            unfold setTile; rw [hax]]
          exact tileAt_setTile_self m x y Tile.empty hlen hrow
        · unfold tileAt setTile
          rw [hax, hby]
          rw [getD_set_self_of_lt _ _ _ _ hlen]
          rw [List.set_eq_of_length_le (by omega)]
          exact h
      · unfold tileAt setTile
        rw [hax]
        rw [getD_set_self_of_lt _ _ _ _ hlen]
        rw [getD_set_ne _ _ _ _ _ hby]
        exact h
    · unfold tileAt setTile
      rw [hax]
      rw [List.set_eq_of_length_le (by omega)]
      exact h
  · unfold tileAt setTile
    rw [getD_set_ne _ _ _ _ _ hax]
    exact h

/-- Generic foldl invariant preservation. -/
theorem foldl_inv {α β : Type} (P : β → Prop) (step : β → α → β) (l : List α) (b : β)
    (hb : P b) (hstep : ∀ x ∈ l, ∀ st, P st → P (step st x)) : P (l.foldl step b) := by
  induction l generalizing b with
  | nil => exact hb
  | cons x t ih =>
    exact ih (step b x) (hstep x (by simp) b hb)
      (fun z hz st hst => hstep z (by simp [hz]) st hst)

theorem mem_intRange (a b x : Int) : x ∈ intRange a b ↔ a ≤ x ∧ x < b := by
  simp only [intRange, List.mem_map, List.mem_range]
  constructor
  · rintro ⟨i, hi, rfl⟩
    omega
  · intro h
    refine ⟨(x - a).toNat, by omega, by omega⟩

theorem create_room_preserves (r : Rect) (m : GameMap) (x y : Int)
    (h : tileAt m x y = Tile.empty ∧ MapDims m) :
    tileAt (create_room r m) x y = Tile.empty ∧ MapDims (create_room r m) := by
  unfold create_room
  apply foldl_inv (fun mm => tileAt mm x y = Tile.empty ∧ MapDims mm) _ _ _ h
  intro x' _ st hst
  apply foldl_inv (fun mm => tileAt mm x y = Tile.empty ∧ MapDims mm) _ _ _ hst
  intro y' _ st2 hst2
  exact ⟨tileAt_setTile_empty_preserve _ _ _ _ _ hst2.1, setTile_dims _ _ _ _ hst2.2⟩

theorem create_h_tunnel_preserves (x1 x2 yy : Int) (m : GameMap) (x y : Int)
    (h : tileAt m x y = Tile.empty ∧ MapDims m) :
    tileAt (create_h_tunnel x1 x2 yy m) x y = Tile.empty ∧
      MapDims (create_h_tunnel x1 x2 yy m) := by
  unfold create_h_tunnel
  apply foldl_inv (fun mm => tileAt mm x y = Tile.empty ∧ MapDims mm) _ _ _ h
  intro x' _ st hst
  exact ⟨tileAt_setTile_empty_preserve _ _ _ _ _ hst.1, setTile_dims _ _ _ _ hst.2⟩

theorem create_v_tunnel_preserves (y1 y2 xx : Int) (m : GameMap) (x y : Int)
    (h : tileAt m x y = Tile.empty ∧ MapDims m) :
    tileAt (create_v_tunnel y1 y2 xx m) x y = Tile.empty ∧
      MapDims (create_v_tunnel y1 y2 xx m) := by
  unfold create_v_tunnel
  apply foldl_inv (fun mm => tileAt mm x y = Tile.empty ∧ MapDims mm) _ _ _ h
  intro y' _ st hst
  exact ⟨tileAt_setTile_empty_preserve _ _ _ _ _ hst.1, setTile_dims _ _ _ _ hst.2⟩

theorem col_carve_hits (x y : Int) (hxW : x < MAP_WIDTH) (hyH : y < MAP_HEIGHT) :
    ∀ (ys : List Int) (m : GameMap), MapDims m → y ∈ ys →
      tileAt (ys.foldl (fun m2 y' => setTile m2 x y' Tile.empty) m) x y = Tile.empty ∧
      MapDims (ys.foldl (fun m2 y' => setTile m2 x y' Tile.empty) m) := by
  intro ys
  induction ys with
  | nil =>
    intro m _ hy
    simp at hy
  | cons y' t ih =>
    intro m hd hy
    simp only [List.foldl_cons]
    rcases List.mem_cons.mp hy with heq | hmem
    · subst heq
      have hMW : MAP_WIDTH = (80 : Int) := rfl
      have hMH : MAP_HEIGHT = (43 : Int) := rfl
      have hlen : x.toNat < m.length := by
        rw [hd.1]
        omega
      have hrow : y.toNat < (m.getD x.toNat []).length := by
        rw [hd.2 _ (by rw [List.getD_eq_getElem _ _ hlen]; exact List.getElem_mem _)]
        omega
      have ht := tileAt_setTile_self m x y Tile.empty hlen hrow
      exact foldl_inv (fun mm => tileAt mm x y = Tile.empty ∧ MapDims mm) _ t _
        ⟨ht, setTile_dims m x y Tile.empty hd⟩
        (fun z _ st hst =>
          ⟨tileAt_setTile_empty_preserve _ _ _ _ _ hst.1, setTile_dims _ _ _ _ hst.2⟩)
    · exact ih (setTile m x y' Tile.empty) (setTile_dims _ _ _ _ hd) hmem

theorem carve_grid_hits (x y : Int) (ys : List Int) (hymem : y ∈ ys)
    (hxW : x < MAP_WIDTH) (hyH : y < MAP_HEIGHT) :
    ∀ (xs : List Int), x ∈ xs → ∀ m, MapDims m →
      tileAt (xs.foldl
        (fun m' x' => ys.foldl (fun m2 y' => setTile m2 x' y' Tile.empty) m') m) x y
        = Tile.empty ∧
      MapDims (xs.foldl
        (fun m' x' => ys.foldl (fun m2 y' => setTile m2 x' y' Tile.empty) m') m) := by
  intro xs
  induction xs with
  | nil =>
    intro hx m _
    simp at hx
  | cons x' t ih =>
    intro hx m hd
    simp only [List.foldl_cons]
    rcases List.mem_cons.mp hx with heq | hmem
    · subst heq
      have h1 := col_carve_hits x y hxW hyH ys m hd hymem
      exact foldl_inv (fun mm => tileAt mm x y = Tile.empty ∧ MapDims mm) _ t _ h1
        (fun z _ st hst =>
          foldl_inv (fun mm => tileAt mm x y = Tile.empty ∧ MapDims mm) _ _ _ hst
            (fun w _ st2 hst2 =>
              ⟨tileAt_setTile_empty_preserve _ _ _ _ _ hst2.1,
                setTile_dims _ _ _ _ hst2.2⟩))
    · have hd1 : MapDims (ys.foldl (fun m2 y' => setTile m2 x' y' Tile.empty) m) :=
        foldl_inv MapDims _ _ _ hd (fun z _ st hst => setTile_dims _ _ _ _ hst)
      exact ih hmem _ hd1

/-- `create_room` turns the whole open interior of the room to `Tile.empty`
on any well-dimensioned map. -/
theorem create_room_hits (r : Rect) (x y : Int) (m : GameMap) (hd : MapDims m)
    (hx1 : r.x1 + 1 ≤ x) (hx2 : x < r.x2) (hy1 : r.y1 + 1 ≤ y) (hy2 : y < r.y2)
    (_hx0 : 0 ≤ x) (hxW : x < MAP_WIDTH) (_hy0 : 0 ≤ y) (hyH : y < MAP_HEIGHT) :
    tileAt (create_room r m) x y = Tile.empty := by
  have hymem : y ∈ intRange (r.y1 + 1) r.y2 := (mem_intRange _ _ _).mpr ⟨hy1, hy2⟩
  have hxmem : x ∈ intRange (r.x1 + 1) r.x2 := (mem_intRange _ _ _).mpr ⟨hx1, hx2⟩
  exact (carve_grid_hits x y _ hymem hxW hyH _ hxmem m hd).1

/-! ### Room intersection and the make_map loop invariant -/

theorem intersect_with_eq_true (a b : Rect) :
    a.intersect_with b = true ↔
      (a.x1 ≤ b.x2 ∧ a.x2 ≥ b.x1 ∧ a.y1 ≤ b.y2 ∧ a.y2 ≥ b.y1) := by
  simp [Rect.intersect_with, and_assoc]

theorem intersect_with_false_symm (a b : Rect) (h : a.intersect_with b = false) :
    b.intersect_with a = false := by
  rw [← Bool.not_eq_true] at h ⊢
  intro hc
  apply h
  rw [intersect_with_eq_true] at hc ⊢
  omega

def LoopInv (st : GameMap × List Rect × (Int × Int)) : Prop :=
  st.2.1.Pairwise (fun a b => a.intersect_with b = false) ∧
  (∀ r ∈ st.2.1, ValidRect r) ∧
  (st.2.1 = [] ∨ ∃ r0 rest, st.2.1 = r0 :: rest ∧ st.2.2 = r0.center)

theorem make_map_step_failed (st : GameMap × List Rect × (Int × Int)) (d : RoomDraw)
    (h : st.2.1.any (fun o => d.rect.intersect_with o) = true) :
    make_map_step st d = st := by
  simp [make_map_step, h]

theorem make_map_step_first (st : GameMap × List Rect × (Int × Int)) (d : RoomDraw)
    (_hf : st.2.1.any (fun o => d.rect.intersect_with o) = false)
    (he : st.2.1 = []) :
    make_map_step st d = (create_room d.rect st.1, [d.rect], d.rect.center) := by
  simp [make_map_step, he]

theorem make_map_step_accept (st : GameMap × List Rect × (Int × Int)) (d : RoomDraw)
    (hf : st.2.1.any (fun o => d.rect.intersect_with o) = false)
    (hne : st.2.1 ≠ []) :
    (make_map_step st d).2.1 = st.2.1 ++ [d.rect] ∧
    (make_map_step st d).2.2 = st.2.2 := by
  have hemp : st.2.1.isEmpty = false := by
    cases hl : st.2.1
    · exact absurd hl hne
    · rfl
  constructor <;>
    simp only [make_map_step, hf, hemp, Bool.false_eq_true, if_false]

theorem make_map_loop_inv (draws : List RoomDraw) (pstart : Int × Int)
    (hvalid : ∀ d ∈ draws, RoomDraw.valid d) :
    LoopInv (make_map_loop draws pstart) := by
  unfold make_map_loop
  refine foldl_inv LoopInv make_map_step draws _
    ⟨List.Pairwise.nil, by simp, Or.inl rfl⟩ ?_
  intro d hd st hst
  obtain ⟨hpw, hval, hhead⟩ := hst
  cases hfail : st.2.1.any (fun o => d.rect.intersect_with o) with
  | true =>
    rw [make_map_step_failed st d hfail]
    exact ⟨hpw, hval, hhead⟩
  | false =>
    have hall : ∀ o ∈ st.2.1, d.rect.intersect_with o = false := by
      rw [List.any_eq_false] at hfail
      intro o ho
      have := hfail o ho
      simpa using this
    by_cases he : st.2.1 = []
    · rw [make_map_step_first st d hfail he]
      refine ⟨List.pairwise_singleton _ _, ?_, ?_⟩
      · intro r hr
        simp only [List.mem_singleton] at hr
        subst hr
        exact RoomDraw.valid_rect d (hvalid d hd)
      · right
        exact ⟨d.rect, [], rfl, rfl⟩
    · obtain ⟨h1, h2⟩ := make_map_step_accept st d hfail he
      refine ⟨?_, ?_, ?_⟩
      · rw [h1, List.pairwise_append]
        refine ⟨hpw, List.pairwise_singleton _ _, ?_⟩
        intro a ha b hb
        simp only [List.mem_singleton] at hb
        subst hb
        exact intersect_with_false_symm _ _ (hall a ha)
      · rw [h1]
        intro r hr
        rcases List.mem_append.mp hr with h | h
        · exact hval r h
        · simp only [List.mem_singleton] at h
          subst h
          exact RoomDraw.valid_rect d (hvalid d hd)
      · rw [h1, h2]
        rcases hhead with hnil | ⟨r0, rest, hr0, hc⟩
        · exact absurd hnil he
        · right
          exact ⟨r0, rest ++ [d.rect], by rw [hr0]; simp, hc⟩

/-- C7: on every random stream whose per-iteration draws satisfy the
`gen_range` postconditions, the accepted rooms of `make_map` are pairwise
non-intersecting under `Rect::intersect_with`, and the player position —
set to the center of the first accepted room — lies strictly inside that
room's carved interior: `create_room` turns its tile to `Tile.empty`. -/
theorem C7_rooms_disjoint_player_in_first_room (draws : List RoomDraw)
    (pstart : Int × Int) (hvalid : ∀ d ∈ draws, RoomDraw.valid d)
    (rooms : List Rect) (ppos : Int × Int)
    (hrooms : rooms = (make_map_loop draws pstart).2.1)
    (hppos : ppos = (make_map_loop draws pstart).2.2) :
    rooms.Pairwise (fun a b => a.intersect_with b = false) ∧
    (∀ r0 rest, rooms = r0 :: rest →
      ppos = r0.center ∧
      (r0.x1 + 1 ≤ ppos.1 ∧ ppos.1 < r0.x2 ∧ r0.y1 + 1 ≤ ppos.2 ∧ ppos.2 < r0.y2) ∧
      tileAt (create_room r0 initial_map) ppos.1 ppos.2 = Tile.empty) := by
  obtain ⟨hpw, hval, hhead⟩ := make_map_loop_inv draws pstart hvalid
  subst hrooms
  subst hppos
  refine ⟨hpw, ?_⟩
  intro r0 rest hr
  rcases hhead with hnil | ⟨r0', rest', hr', hc⟩
  · rw [hr] at hnil
    cases hnil
  · obtain ⟨hr0eq, hresteq⟩ := List.cons_eq_cons.mp (hr'.symm.trans hr)
    rw [hr0eq] at hc
    have hv := hval r0 (by rw [hr]; simp)
    obtain ⟨hx0, hxm, hxW, hy0, hym, hyH⟩ := hv
    have hRM : ROOM_MIN_SIZE = (6 : Int) := rfl
    have hMW : MAP_WIDTH = (80 : Int) := rfl
    have hMH : MAP_HEIGHT = (43 : Int) := rfl
    have hcenter1 : (r0.center).1 = (r0.x1 + r0.x2) / 2 := rfl
    have hcenter2 : (r0.center).2 = (r0.y1 + r0.y2) / 2 := rfl
    refine ⟨hc, ?_, ?_⟩
    · rw [hc, hcenter1, hcenter2]
      refine ⟨by omega, by omega, by omega, by omega⟩
    · rw [hc, hcenter1, hcenter2]
      exact create_room_hits r0 _ _ initial_map initial_map_dims
        (by omega) (by omega) (by omega) (by omega)
        (by omega) (by omega) (by omega) (by omega)

instance (d : RoomDraw) : Decidable d.valid := by
  unfold RoomDraw.valid
  infer_instance

/-- Two valid, far-apart draws for the concrete witnesses. -/
def testDraws : List RoomDraw := [⟨6, 6, 1, 1, true⟩, ⟨6, 6, 30, 20, false⟩]

/-- C7 witness: on the concrete two-draw stream both rooms are accepted,
they do not intersect, and the player lands at (4, 4), strictly inside the
first room (1,1)-(7,7), on a carved tile. -/
theorem C7_rooms_disjoint_player_in_first_room_witness :
    (∀ d ∈ testDraws, RoomDraw.valid d) ∧
    ((make_map_loop testDraws (0, 0)).2.1.Pairwise
        (fun a b => a.intersect_with b = false) ∧
      (∀ r0 rest, (make_map_loop testDraws (0, 0)).2.1 = r0 :: rest →
        (make_map_loop testDraws (0, 0)).2.2 = r0.center ∧
        (r0.x1 + 1 ≤ (make_map_loop testDraws (0, 0)).2.2.1 ∧
          (make_map_loop testDraws (0, 0)).2.2.1 < r0.x2 ∧
          r0.y1 + 1 ≤ (make_map_loop testDraws (0, 0)).2.2.2 ∧
          (make_map_loop testDraws (0, 0)).2.2.2 < r0.y2) ∧
        tileAt (create_room r0 initial_map) (make_map_loop testDraws (0, 0)).2.2.1
          (make_map_loop testDraws (0, 0)).2.2.2 = Tile.empty)) :=
  ⟨by decide,
    C7_rooms_disjoint_player_in_first_room testDraws (0, 0) (by decide) _ _ rfl rfl⟩

/-- The room-placement fold only ever appends to the accepted-room list. -/
theorem foldl_step_rooms_extend :
    ∀ (t : List RoomDraw) (st : GameMap × List Rect × (Int × Int)),
      ∃ ext, (t.foldl make_map_step st).2.1 = st.2.1 ++ ext := by
  intro t
  induction t with
  | nil =>
    intro st
    exact ⟨[], by simp⟩
  | cons d r ih =>
    intro st
    simp only [List.foldl_cons]
    obtain ⟨ext, hext⟩ := ih (make_map_step st d)
    cases hfail : st.2.1.any (fun o => d.rect.intersect_with o) with
    | true =>
      exact ⟨ext, by rw [hext, make_map_step_failed st d hfail]⟩
    | false =>
      by_cases he : st.2.1 = []
      · refine ⟨d.rect :: ext, ?_⟩
        rw [hext, make_map_step_first st d hfail he, he]
        simp
      · obtain ⟨h1, _⟩ := make_map_step_accept st d hfail he
        refine ⟨d.rect :: ext, ?_⟩
        rw [hext, h1]
        simp

/-- C10: the `rooms[rooms.len() - 1]` access placing the stairs is always in
bounds. On any non-empty draw stream (the source always runs MAX_ROOMS = 30
iterations) the first candidate is tested against an empty room list, so
`any` returns false and it is always accepted; the room list therefore ends
non-empty with the first candidate at its head, `make_map` reaches the
stairs placement rather than panicking, and the stairs object is appended
after the (truncated) object store. -/
theorem C10_stairs_index_in_bounds (objects : List Object) (pstart : Int × Int)
    (draws : List RoomDraw) (d0 : RoomDraw) (rest : List RoomDraw)
    (hne : draws = d0 :: rest) :
    (make_map_loop draws pstart).2.1 ≠ [] ∧
    ((make_map_loop draws pstart).2.1).head? = some d0.rect ∧
    (∃ objs last, make_map_objects objects draws pstart = some objs ∧
      ((make_map_loop draws pstart).2.1).getLast? = some last ∧
      objs = objects.take 1 ++ [stairsObject last.center]) := by
  subst hne
  have hfail : (([] : List Rect).any (fun o => d0.rect.intersect_with o)) = false := rfl
  have hstep := make_map_step_first (initial_map, [], pstart) d0 hfail rfl
  obtain ⟨ext, hext⟩ := foldl_step_rooms_extend rest
    (create_room d0.rect initial_map, [d0.rect], d0.rect.center)
  have hrooms : (make_map_loop (d0 :: rest) pstart).2.1 = d0.rect :: ext := by
    unfold make_map_loop
    simp only [List.foldl_cons]
    rw [hstep, hext]
    rfl
  have hnonempty : (make_map_loop (d0 :: rest) pstart).2.1 ≠ [] := by
    rw [hrooms]
    simp
  obtain ⟨last, hlast⟩ :=
    Option.isSome_iff_exists.mp (List.getLast?_isSome.mpr hnonempty)
  refine ⟨hnonempty, by rw [hrooms]; rfl, objects.take 1 ++ [stairsObject last.center],
    last, ?_, hlast, rfl⟩
  unfold make_map_objects
  rw [hlast]

/-- C10 witness: on the concrete two-draw stream the loop accepts both
rooms, the head is the first candidate, and the stairs object is appended at
the last room's center. -/
theorem C10_stairs_index_in_bounds_witness :
    (testDraws = (⟨6, 6, 1, 1, true⟩ : RoomDraw) :: [⟨6, 6, 30, 20, false⟩]) ∧
    ((make_map_loop testDraws (0, 0)).2.1 ≠ [] ∧
      ((make_map_loop testDraws (0, 0)).2.1).head? =
        some (RoomDraw.rect ⟨6, 6, 1, 1, true⟩) ∧
      (∃ objs last,
        make_map_objects [new_game_player] testDraws (0, 0) = some objs ∧
        ((make_map_loop testDraws (0, 0)).2.1).getLast? = some last ∧
        objs = [new_game_player].take 1 ++ [stairsObject last.center])) :=
  ⟨rfl,
    C10_stairs_index_in_bounds [new_game_player] (0, 0) testDraws
      ⟨6, 6, 1, 1, true⟩ [⟨6, 6, 30, 20, false⟩] rfl⟩

/-! ## C9: lightning (closest_monster 628-646, cast_lightning 536-558) -/

/-- The squared Euclidean distance of `Object::distance_to`. The source
compares `f32` square roots of integer squared distances (and the initial
bound `(max_range + 1) as f32`, itself the root of `(max_range + 1)^2`);
square-root being strictly monotone and the magnitudes involved being far
below `f32` precision limits, those comparisons coincide with the integer
comparisons of the squares used here. -/
def distance_sq (a b : Object) : Int :=
  (b.x - a.x) ^ 2 + (b.y - a.y) ^ 2

/-- One iteration of `closest_monster`'s scan. The accumulator carries
(closest_enemy, squared closest_dist). -/
def closest_step (player : Object) (fov : Int → Int → Bool)
    (acc : Option Nat × Int) (io : Nat × Object) : Option Nat × Int :=
  if io.1 ≠ PLAYER ∧ io.2.fighter.isSome = true ∧ io.2.ai.isSome = true ∧
      fov io.2.x io.2.y = true then
    if distance_sq player io.2 < acc.2 then (some io.1, distance_sq player io.2)
    else acc
  else acc

/-- `closest_monster` (an empty object store would panic at
`objects[PLAYER]`; modelled as `none`, unreachable in the game). -/
def closest_monster (max_range : Int) (objects : List Object)
    (fov : Int → Int → Bool) : Option Nat :=
  match objects with
  | [] => none
  | player :: _ =>
    (objects.enum.foldl (closest_step player fov) (none, (max_range + 1) ^ 2)).1

/-- `cast_lightning`. -/
def cast_lightning (objects : List Object) (game : Game) (fov : Int → Int → Bool) :
    List Object × Game × UseResult :=
  match closest_monster LIGHTNING_RANGE objects fov with
  | some monster_id =>
    let game := addLog game
      ("A lightning bolt strikes the " ++ (objects.getD monster_id dfltObject).name
        ++ " with a loud thunder! The damage is " ++ toString LIGHTNING_DAMAGE
        ++ " hit points.")
    let r := (objects.getD monster_id dfltObject).take_damage LIGHTNING_DAMAGE game
    let objects := objects.set monster_id r.1
    let objects :=
      match r.2.2 with
      | some xp =>
        match (objects.getD PLAYER dfltObject).fighter with
        | some f =>
          objects.set PLAYER
            { objects.getD PLAYER dfltObject with fighter := some { f with xp := f.xp + xp } }
        | none => objects
      | none => objects
    (objects, r.2.1, UseResult.UseAndTakeTurn)
  | none =>
    (objects, addLog game "No enemy is close enough to strike.", UseResult.Cancelled)

/-- The claim's candidate filter: not the player, has Fighter and Ai, and is
visible to the oracle. -/
def lightning_candidate (fov : Int → Int → Bool) (idx : Nat) (o : Object) : Prop :=
  idx ≠ PLAYER ∧ o.fighter.isSome = true ∧ o.ai.isSome = true ∧ fov o.x o.y = true

instance (fov : Int → Int → Bool) (idx : Nat) (o : Object) :
    Decidable (lightning_candidate fov idx o) := by
  unfold lightning_candidate
  infer_instance

/-- A Fighter+Ai monster at (5, 2): Euclidean distance √29 ≈ 5.385 from a
player at the origin, strictly beyond LIGHTNING_RANGE = 5. -/
def farMonster : Object :=
  { Object.new 5 2 'p' "poulet" true with
    fighter := some testPouletFighter
    ai := some Ai.Basic
    alive := true }

/-- An oracle under which every tile is visible. -/
def allVisible : Int → Int → Bool := fun _ _ => true

/-- C9 counterexample: the only candidate monster stands at squared distance
29 > LIGHTNING_RANGE² = 25 from the player, i.e. outside the claimed range,
yet `closest_monster` selects it (the source accepts any distance
< max_range + 1 = 6, and √29 < 6) and `cast_lightning` strikes it for 40,
killing it and crediting its 20 xp — instead of the claimed Cancelled with
no hp change. -/
theorem C9_lightning_counterexample :
    distance_sq new_game_player farMonster = 29 ∧
    LIGHTNING_RANGE ^ 2 < 29 ∧
    (∀ io ∈ ([new_game_player, farMonster] : List Object).enum,
      lightning_candidate allVisible io.1 io.2 →
        LIGHTNING_RANGE ^ 2 < distance_sq new_game_player io.2) ∧
    closest_monster LIGHTNING_RANGE [new_game_player, farMonster] allVisible = some 1 ∧
    (cast_lightning [new_game_player, farMonster] emptyGame allVisible).2.2 =
      UseResult.UseAndTakeTurn ∧
    ((cast_lightning [new_game_player, farMonster] emptyGame allVisible).1.getD 1
        dfltObject).fighter = none ∧
    ((cast_lightning [new_game_player, farMonster] emptyGame allVisible).1.getD 0
        dfltObject).fighter = some { new_game_player_fighter with xp := 20 } := by
  decide

/-- Behavior of one full `closest_monster` scan from any accumulator: the
tracked squared distance never grows, ends below every scanned candidate's
squared distance, and the final accumulator is either untouched or holds a
scanned candidate whose squared distance it records, strictly below the
starting bound. -/
theorem closest_fold_spec (player : Object) (fov : Int → Int → Bool) :
    ∀ (l : List (Nat × Object)) (acc : Option Nat × Int),
      (l.foldl (closest_step player fov) acc).2 ≤ acc.2 ∧
      (∀ io ∈ l, lightning_candidate fov io.1 io.2 →
        (l.foldl (closest_step player fov) acc).2 ≤ distance_sq player io.2) ∧
      ((l.foldl (closest_step player fov) acc) = acc ∨
        ∃ io ∈ l, lightning_candidate fov io.1 io.2 ∧
          (l.foldl (closest_step player fov) acc).1 = some io.1 ∧
          (l.foldl (closest_step player fov) acc).2 = distance_sq player io.2 ∧
          (l.foldl (closest_step player fov) acc).2 < acc.2) := by
  intro l
  induction l with
  | nil =>
    intro acc
    exact ⟨le_refl _, by simp, Or.inl rfl⟩
  | cons io t ih =>
    intro acc
    simp only [List.foldl_cons]
    by_cases hcand : lightning_candidate fov io.1 io.2
    · by_cases hlt : distance_sq player io.2 < acc.2
      · have hstep : closest_step player fov acc io = (some io.1, distance_sq player io.2) := by
          unfold lightning_candidate at hcand
          unfold closest_step
          rw [if_pos hcand, if_pos hlt]
        rw [hstep]
        obtain ⟨ih1, ih2, ih3⟩ := ih (some io.1, distance_sq player io.2)
        refine ⟨le_trans ih1 (le_of_lt hlt), ?_, ?_⟩
        · intro jo hjo hcj
          rcases List.mem_cons.mp hjo with rfl | hmem
          · exact ih1
          · exact ih2 jo hmem hcj
        · rcases ih3 with heq | ⟨jo, hjo, hcj, h1, h2, h3⟩
          · right
            exact ⟨io, by simp, hcand, by rw [heq], by rw [heq], by rw [heq]; exact hlt⟩
          · right
            exact ⟨jo, by simp [hjo], hcj, h1, h2, lt_trans h3 hlt⟩
      · have hstep : closest_step player fov acc io = acc := by
          unfold lightning_candidate at hcand
          unfold closest_step
          rw [if_pos hcand, if_neg hlt]
        rw [hstep]
        obtain ⟨ih1, ih2, ih3⟩ := ih acc
        refine ⟨ih1, ?_, ?_⟩
        · intro jo hjo hcj
          rcases List.mem_cons.mp hjo with rfl | hmem
          · omega
          · exact ih2 jo hmem hcj
        · rcases ih3 with heq | ⟨jo, hjo, hcj, h1, h2, h3⟩
          · exact Or.inl heq
          · exact Or.inr ⟨jo, by simp [hjo], hcj, h1, h2, h3⟩
    · have hstep : closest_step player fov acc io = acc := by
        unfold closest_step
        rw [if_neg (by unfold lightning_candidate at hcand; exact hcand)]
      rw [hstep]
      obtain ⟨ih1, ih2, ih3⟩ := ih acc
      refine ⟨ih1, ?_, ?_⟩
      · intro jo hjo hcj
        rcases List.mem_cons.mp hjo with rfl | hmem
        · exact absurd hcj hcand
        · exact ih2 jo hmem hcj
      · rcases ih3 with heq | ⟨jo, hjo, hcj, h1, h2, h3⟩
        · exact Or.inl heq
        · exact Or.inr ⟨jo, by simp [hjo], hcj, h1, h2, h3⟩

theorem closest_monster_none (player : Object) (rest : List Object)
    (fov : Int → Int → Bool)
    (h : closest_monster LIGHTNING_RANGE (player :: rest) fov = none) :
    ∀ io ∈ (player :: rest).enum, lightning_candidate fov io.1 io.2 →
      (LIGHTNING_RANGE + 1) ^ 2 ≤ distance_sq player io.2 := by
  intro io hio hc
  obtain ⟨h1, h2, h3⟩ := closest_fold_spec player fov ((player :: rest).enum)
    (none, (LIGHTNING_RANGE + 1) ^ 2)
  simp only [closest_monster] at h
  rcases h3 with heq | ⟨jo, hjo, hcj, hj1, hj2, hj3⟩
  · have := h2 io hio hc
    rw [heq] at this
    exact this
  · rw [hj1] at h
    simp at h

theorem closest_monster_some (player : Object) (rest : List Object)
    (fov : Int → Int → Bool) (m : Nat)
    (h : closest_monster LIGHTNING_RANGE (player :: rest) fov = some m) :
    ∃ om, (player :: rest)[m]? = some om ∧
      lightning_candidate fov m om ∧
      distance_sq player om < (LIGHTNING_RANGE + 1) ^ 2 ∧
      (∀ io ∈ (player :: rest).enum, lightning_candidate fov io.1 io.2 →
        distance_sq player om ≤ distance_sq player io.2) := by
  obtain ⟨h1, h2, h3⟩ := closest_fold_spec player fov ((player :: rest).enum)
    (none, (LIGHTNING_RANGE + 1) ^ 2)
  simp only [closest_monster] at h
  rcases h3 with heq | ⟨jo, hjo, hcj, hj1, hj2, hj3⟩
  · rw [heq] at h
    simp at h
  · rw [hj1] at h
    have hm := Option.some.inj h
    refine ⟨jo.2, ?_, ?_, ?_, ?_⟩
    · rw [← hm]
      exact List.mem_enum_iff_getElem?.mp hjo
    · rw [← hm]
      exact hcj
    · rw [← hj2]
      exact hj3
    · intro io hio hc
      rw [← hj2]
      exact h2 io hio hc

/-- C9 amended: the lightning effect selects a candidate (non-player,
Fighter+Ai, visible) of minimum Euclidean distance from the player among
those at distance strictly less than LIGHTNING_RANGE + 1 (the source's
acceptance bound `dist < (max_range + 1) as f32`, i.e. squared distance
< (LIGHTNING_RANGE+1)² = 36 — not distance ≤ LIGHTNING_RANGE as claimed);
if one exists it takes the fixed LIGHTNING_DAMAGE directly via take_damage
(bypassing defense), the player is credited the target's xp exactly when
the hit kills it, and the result is UseAndTakeTurn; if no candidate is
within that bound the result is Cancelled and the object store is
unchanged. -/
theorem C9_lightning_amended (objects : List Object) (game : Game)
    (fov : Int → Int → Bool) (player : Object) (rest : List Object)
    (hobj : objects = player :: rest) :
    (closest_monster LIGHTNING_RANGE objects fov = none →
      (∀ io ∈ objects.enum, lightning_candidate fov io.1 io.2 →
        (LIGHTNING_RANGE + 1) ^ 2 ≤ distance_sq player io.2) ∧
      cast_lightning objects game fov =
        (objects, addLog game "No enemy is close enough to strike.",
          UseResult.Cancelled)) ∧
    (∀ m, closest_monster LIGHTNING_RANGE objects fov = some m →
      ∃ om, objects.getD m dfltObject = om ∧ m < objects.length ∧
        lightning_candidate fov m om ∧
        distance_sq player om < (LIGHTNING_RANGE + 1) ^ 2 ∧
        (∀ io ∈ objects.enum, lightning_candidate fov io.1 io.2 →
          distance_sq player om ≤ distance_sq player io.2) ∧
        (cast_lightning objects game fov).2.2 = UseResult.UseAndTakeTurn ∧
        (∀ fm, om.fighter = some fm →
          (0 < fm.hp - LIGHTNING_DAMAGE →
            ((cast_lightning objects game fov).1.getD m dfltObject).fighter =
              some { fm with hp := fm.hp - LIGHTNING_DAMAGE }) ∧
          (fm.hp - LIGHTNING_DAMAGE ≤ 0 → fm.on_death = DeathCallback.Monster →
            ∀ fp, player.fighter = some fp →
              ((cast_lightning objects game fov).1.getD m dfltObject).fighter = none ∧
              ((cast_lightning objects game fov).1.getD PLAYER dfltObject).fighter =
                some { fp with xp := fp.xp + fm.xp }))) := by
  subst hobj
  constructor
  · intro hm
    refine ⟨closest_monster_none player rest fov hm, ?_⟩
    simp only [cast_lightning, hm]
  · intro m hm
    obtain ⟨om, hsome, hcand, hlt36, hmin⟩ := closest_monster_some player rest fov m hm
    obtain ⟨hmlt, hget⟩ := List.getElem?_eq_some.mp hsome
    have hgetD : (player :: rest).getD m dfltObject = om := by
      rw [List.getD_eq_getElem _ _ hmlt, hget]
    have hmne : m ≠ 0 := hcand.1
    have hdmg : (0 : Int) < LIGHTNING_DAMAGE := by decide
    refine ⟨om, hgetD, hmlt, hcand, hlt36, hmin, ?_, ?_⟩
    · simp only [cast_lightning, hm]
    · intro fm hfm
      constructor
      · intro hsurv
        have htd := take_damage_survive om LIGHTNING_DAMAGE
          (addLog game ("A lightning bolt strikes the " ++ om.name
            ++ " with a loud thunder! The damage is " ++ toString LIGHTNING_DAMAGE
            ++ " hit points.")) fm hfm hdmg hsurv
        simp only [cast_lightning, hm, hgetD, htd]
        rw [getD_set_self_of_lt _ _ _ _ hmlt]
      · intro hkill hmon fp hfp
        have htd := take_damage_kill_monster om LIGHTNING_DAMAGE
          (addLog game ("A lightning bolt strikes the " ++ om.name
            ++ " with a loud thunder! The damage is " ++ toString LIGHTNING_DAMAGE
            ++ " hit points.")) fm hfm hdmg hkill hmon
        simp only [cast_lightning, hm, hgetD, htd]
        simp only [PLAYER]
        have h0get : ((player :: rest).set m
            ({ om with
                char := '%'
                blocks := false
                fighter := none
                ai := none
                name := "remains of " ++ om.name
                alive := false })).getD 0 dfltObject = player := by
          rw [List.getD_eq_getElem _ _ (by rw [List.length_set]; exact Nat.zero_lt_succ _)]
          rw [List.getElem_set_ne hmne]
          exact List.getElem_cons_zero _ _ _
        rw [h0get, hfp]
        constructor
        · rw [getD_set_ne _ _ _ _ _ (fun hh => hmne hh.symm)]
          rw [getD_set_self_of_lt _ _ _ _ hmlt]
        · rw [getD_set_self_of_lt _ _ _ _
            (by rw [List.length_set]; exact Nat.zero_lt_succ _)]

/-- A Fighter+Ai monster at (2, 1): squared distance 5 < 36 from the player
at the origin. -/
def nearMonster : Object :=
  { Object.new 2 1 'p' "poulet" true with
    fighter := some testPouletFighter
    ai := some Ai.Basic
    alive := true }

/-- C9 amended witness: with the player at the origin and one visible
Fighter+Ai monster at (2, 1), the amended characterization holds for the
concrete store [player, monster]. -/
theorem C9_lightning_amended_witness :
    ([new_game_player, nearMonster] = new_game_player :: [nearMonster]) ∧
    ((closest_monster LIGHTNING_RANGE [new_game_player, nearMonster] allVisible = none →
      (∀ io ∈ ([new_game_player, nearMonster] : List Object).enum,
        lightning_candidate allVisible io.1 io.2 →
        (LIGHTNING_RANGE + 1) ^ 2 ≤ distance_sq new_game_player io.2) ∧
      cast_lightning [new_game_player, nearMonster] emptyGame allVisible =
        ([new_game_player, nearMonster],
          addLog emptyGame "No enemy is close enough to strike.",
          UseResult.Cancelled)) ∧
    (∀ m, closest_monster LIGHTNING_RANGE [new_game_player, nearMonster] allVisible
        = some m →
      ∃ om, ([new_game_player, nearMonster] : List Object).getD m dfltObject = om ∧
        m < ([new_game_player, nearMonster] : List Object).length ∧
        lightning_candidate allVisible m om ∧
        distance_sq new_game_player om < (LIGHTNING_RANGE + 1) ^ 2 ∧
        (∀ io ∈ ([new_game_player, nearMonster] : List Object).enum,
          lightning_candidate allVisible io.1 io.2 →
          distance_sq new_game_player om ≤ distance_sq new_game_player io.2) ∧
        (cast_lightning [new_game_player, nearMonster] emptyGame allVisible).2.2 =
          UseResult.UseAndTakeTurn ∧
        (∀ fm, om.fighter = some fm →
          (0 < fm.hp - LIGHTNING_DAMAGE →
            ((cast_lightning [new_game_player, nearMonster] emptyGame
                allVisible).1.getD m dfltObject).fighter =
              some { fm with hp := fm.hp - LIGHTNING_DAMAGE }) ∧
          (fm.hp - LIGHTNING_DAMAGE ≤ 0 → fm.on_death = DeathCallback.Monster →
            ∀ fp, new_game_player.fighter = some fp →
              ((cast_lightning [new_game_player, nearMonster] emptyGame
                  allVisible).1.getD m dfltObject).fighter = none ∧
              ((cast_lightning [new_game_player, nearMonster] emptyGame
                  allVisible).1.getD PLAYER dfltObject).fighter =
                some { fp with xp := fp.xp + fm.xp })))) :=
  ⟨rfl,
    C9_lightning_amended [new_game_player, nearMonster] emptyGame allVisible
      new_game_player [nearMonster] rfl⟩
